import Mathlib

/-!
Verification development for the export-xcarchive build step.

The Go sources embedded here are main.go (input processing and the run
sequence) and utils.go (export-options generation: the code-sign group
resolution pipeline and the export-options synthesis).

Modelling conventions:
  - Go maps are embedded as association lists with pairwise distinct keys;
    Go map iteration order is arbitrary, so facts that hold for every
    enumeration of a map are stated for every permutation of the list.
  - Results of external collaborators (installed-certificate and
    installed-profile stores, the seeded code-sign groups produced by the
    go-xcode library, the default-profile fetch, the detected build-tool
    version, the plist parser) are taken as inputs of the embedded
    functions.
  - Fallible Go code returns Except; a Go panic (nil dereference) is an
    Except.error.
  - Functions of the go-xcode dependency whose sources are not part of
    this repository (the selectable-group filters, the serializer) are
    modelled from the specification; each such definition carries a doc
    comment saying so.
-/

deriving instance DecidableEq for Except

/-- Distribution method, from the go-xcode exportoptions package as used by
this step; the step restricts the distribution_method input to the four
values development, app-store, ad-hoc and enterprise. -/
inductive Method where
  | development
  | adHoc
  | enterprise
  | appStore
deriving DecidableEq, Repr

/-- Modelled from the spec: exportoptions.ParseMethod of the go-xcode
dependency, restricted to the method strings the step can pass
(distribution_method is declared opt[development,app-store,ad-hoc,enterprise]). -/
def parseMethod (s : String) : Option Method :=
  if s = "development" then some Method.development
  else if s = "ad-hoc" then some Method.adHoc
  else if s = "enterprise" then some Method.enterprise
  else if s = "app-store" then some Method.appStore
  else none

/-- Export product, utils.go lines 22-30. -/
inductive ExportProduct where
  | app
  | appClip
deriving DecidableEq, Repr

/-- ParseExportProduct, utils.go lines 33-42; the Go error case becomes none
and its message is reproduced at the call site. -/
def parseExportProduct (product : String) : Option ExportProduct :=
  if product = "app" then some ExportProduct.app
  else if product = "app-clip" then some ExportProduct.appClip
  else none

/-- Certificate data used by the pipeline, from
certificateutil.CertificateInfoModel (only the fields utils.go reads). -/
structure CertificateInfo where
  commonName : String
  teamID : String
deriving DecidableEq, Repr

/-- Provisioning profile data used by the pipeline, from
profileutil.ProvisioningProfileInfoModel (only the fields the pipeline and
the spec-modelled filters read). -/
structure ProvisioningProfileInfo where
  name : String
  uuid : String
  teamID : String
  exportType : Method
  entitlementKeys : List String
deriving DecidableEq, Repr

/-- A selectable code-sign group: one certificate with, per bundle
identifier, the list of candidate profiles (export.SelectableCodeSignGroup
of the go-xcode dependency). The bundle-to-profiles Go map is embedded as an
association list. -/
structure SelectableCodeSignGroup where
  certificate : CertificateInfo
  bundleIDProfilesMap : List (String × List ProvisioningProfileInfo)
deriving DecidableEq, Repr

/-- A narrowed code-sign group: one certificate with exactly one profile per
bundle identifier (export.IosCodeSignGroup of the go-xcode dependency). -/
structure IosCodeSignGroup where
  certificate : CertificateInfo
  bundleIDProfileMap : List (String × ProvisioningProfileInfo)
deriving DecidableEq, Repr

/-- The clip application embedded in an archive (only the field read by the
step). -/
structure ClipApplication where
  bundleIdentifier : String
deriving DecidableEq, Repr

/-- The main application of an iOS archive (only the fields read by the
step). -/
structure ArchiveApplication where
  bundleIdentifier : String
  clipApplication : Option ClipApplication
  provisioningProfileName : String
deriving DecidableEq, Repr

/-- An iOS archive as read by the step (xcarchive.IosArchive). -/
structure IosArchive where
  application : ArchiveApplication
deriving DecidableEq, Repr

/-- Character class of Go strings.TrimSpace (unicode.IsSpace): the Unicode
White_Space code points. -/
def goIsSpace (c : Char) : Bool :=
  (9 ≤ c.val && c.val ≤ 13) || c.val = 32 || c.val = 0x85 || c.val = 0xA0 ||
    c.val = 0x1680 || (0x2000 ≤ c.val && c.val ≤ 0x200A) || c.val = 0x2028 ||
    c.val = 0x2029 || c.val = 0x202F || c.val = 0x205F || c.val = 0x3000

/-- Go strings.TrimSpace: drop leading and trailing white space. -/
def goTrimSpace (s : String) : String :=
  String.mk (((s.data.dropWhile goIsSpace).reverse.dropWhile goIsSpace).reverse)

/-- Detected build-tool version, models.XcodebuildVersionModel (the fields
the step reads). -/
structure XcodebuildVersionModel where
  version : String
  buildVersion : String
  majorVersion : Int
deriving DecidableEq, Repr

/-- Parsed step inputs, main.go lines 31-42 (the Inputs struct after the
environment parser ran; parsing itself is a collaborator). -/
structure Inputs where
  archivePath : String
  distributionMethod : String
  uploadBitcode : Bool
  compileBitcode : Bool
  teamID : String
  productToDistribute : String
  exportOptionsPlistContent : String
  deployDir : String
  verboseLog : Bool
deriving DecidableEq, Repr

/-- The processed configuration, main.go lines 44-54. -/
structure Config where
  archivePath : String
  deployDir : String
  productToDistribute : ExportProduct
  xcodebuildVersion : XcodebuildVersionModel
  exportOptionsPlistContent : String
  distributionMethod : String
  teamID : String
  uploadBitcode : Bool
  compileBitcode : Bool
deriving DecidableEq, Repr

/-- Step.ProcessInputs, main.go lines 88-143. The input parser, the plist
validator (plist.Unmarshal of the howett.net/plist dependency) and the Xcode
version detection are collaborators, taken as arguments. -/
def processInputs (inputs : Inputs)
    (xcodebuildVersionResult : Except String XcodebuildVersionModel)
    (plistUnmarshal : String → Except String Unit) : Except String Config :=
  match parseExportProduct inputs.productToDistribute with
  | none =>
      Except.error ("failed to parse export product option, error: unkown method (" ++
        inputs.productToDistribute ++ ")")
  | some product =>
      let trimmedExportOptions := goTrimSpace inputs.exportOptionsPlistContent
      let validation : Except String Unit :=
        if trimmedExportOptions ≠ "" then
          match plistUnmarshal trimmedExportOptions with
          | Except.error e => Except.error ("issue with input ExportOptionsPlistContent: " ++ e)
          | Except.ok _ => Except.ok ()
        else Except.ok ()
      match validation with
      | Except.error e => Except.error e
      | Except.ok _ =>
          let trimmedTeamID := goTrimSpace inputs.teamID
          match xcodebuildVersionResult with
          | Except.error e => Except.error ("failed to determine Xcode version, error: " ++ e)
          | Except.ok v =>
              Except.ok
                { archivePath := inputs.archivePath
                  deployDir := inputs.deployDir
                  productToDistribute := product
                  xcodebuildVersion := v
                  exportOptionsPlistContent := trimmedExportOptions
                  distributionMethod := inputs.distributionMethod
                  teamID := trimmedTeamID
                  uploadBitcode := inputs.uploadBitcode
                  compileBitcode := inputs.compileBitcode }

/-- Arguments of generateExportOptionsPlist, utils.go line 62, together with
the results of its collaborators: entitlementsMap is one enumeration of
archive.BundleIDEntitlementsMap(), codeSignGroups is the result of
export.CreateSelectableCodeSignGroups over the installed certificates and
profiles (utils.go lines 105-127), defaultProfileURL is the
BITRISE_DEFAULT_PROVISION_URL environment value, defaultProfileResult the
result of getDefaultProvisioningProfile (utils.go lines 314-356), and
isXcodeManaged the profileutil.IsXcodeManaged name classifier. -/
structure GenArgs where
  exportProduct : ExportProduct
  exportMethodStr : String
  teamID : String
  uploadBitcode : Bool
  compileBitcode : Bool
  xcodebuildMajorVersion : Int
  archive : IosArchive
  manageVersionAndBuildNumber : Bool
  entitlementsMap : List (String × List String)
  codeSignGroups : List SelectableCodeSignGroup
  defaultProfileURL : String
  defaultProfileResult : Except String ProvisioningProfileInfo
  isXcodeManaged : String → Bool

/-- Modelled from the spec: export.FilterSelectableCodeSignGroups of the
go-xcode dependency keeps exactly the groups accepted by the filter
(spec 4.2, every filter step reads keep only groups where the condition
holds). -/
def filterSelectableCodeSignGroups (groups : List SelectableCodeSignGroup)
    (filter : SelectableCodeSignGroup → Bool) : List SelectableCodeSignGroup :=
  groups.filter filter

/-- Modelled from the spec: the entitlements filter
(export.CreateEntitlementsSelectableCodeSignGroupFilter) keeps a group when,
for every bundle target, at least one candidate profile grants a superset of
the target's declared entitlement keys (spec 4.2 step 2). -/
def entitlementsFilter (entitlementsMap : List (String × List String))
    (group : SelectableCodeSignGroup) : Bool :=
  entitlementsMap.all (fun target =>
    group.bundleIDProfilesMap.any (fun entry =>
      entry.1 == target.1 &&
        entry.2.any (fun profile =>
          target.2.all (fun key => profile.entitlementKeys.contains key))))

/-- Modelled from the spec: the export-method filter
(export.CreateExportMethodSelectableCodeSignGroupFilter) keeps a group when
its profiles classify as the requested distribution method, with an exact
match per bundle target (spec 4.2 step 3). -/
def exportMethodFilter (method : Method) (group : SelectableCodeSignGroup) : Bool :=
  group.bundleIDProfilesMap.all (fun entry =>
    entry.2.any (fun profile => profile.exportType == method))

/-- Modelled from the spec: the team filter
(export.CreateTeamSelectableCodeSignGroupFilter) keeps only groups whose
certificate has the requested team identifier (spec 4.2 step 4). -/
def teamFilter (teamID : String) (group : SelectableCodeSignGroup) : Bool :=
  group.certificate.teamID == teamID

/-- Modelled from the spec: the not-build-tool-managed filter
(export.CreateNotXcodeManagedSelectableCodeSignGroupFilter) eliminates
groups composed exclusively of build-tool-managed profiles (spec 4.2
step 5). -/
def notXcodeManagedFilter (managed : String → Bool)
    (group : SelectableCodeSignGroup) : Bool :=
  group.bundleIDProfilesMap.any (fun entry =>
    entry.2.any (fun profile => !(managed profile.name)))

/-- Modelled from the spec: the profile-name exclusion filter
(export.CreateExcludeProfileNameSelectableCodeSignGroupFilter) drops groups
that resolve to the fallback profile's name (spec 4.2 step 6). -/
def excludeProfileNameFilter (profileName : String)
    (group : SelectableCodeSignGroup) : Bool :=
  group.bundleIDProfilesMap.all (fun entry =>
    entry.2.all (fun profile => profile.name != profileName))

/-- Whether the archive's original profile is build-tool managed,
archive.Application.ProvisioningProfile.IsXcodeManaged() in utils.go. -/
def archiveProfileXcodeManaged (a : GenArgs) : Bool :=
  a.isXcodeManaged a.archive.application.provisioningProfileName

/-- Candidate groups after the target-capability (entitlement) filter,
utils.go lines 142-151: applied only when the entitlements map is
non-empty. -/
def stageEntitlements (a : GenArgs) : List SelectableCodeSignGroup :=
  if 0 < a.entitlementsMap.length then
    filterSelectableCodeSignGroups a.codeSignGroups (entitlementsFilter a.entitlementsMap)
  else a.codeSignGroups

/-- Candidate groups after the export-method filter, utils.go lines
153-160: applied unconditionally. -/
def stageExportMethod (a : GenArgs) (m : Method) : List SelectableCodeSignGroup :=
  filterSelectableCodeSignGroups (stageEntitlements a) (exportMethodFilter m)

/-- Candidate groups after the team filter, utils.go lines 162-171: applied
exactly when a non-empty team identifier was supplied. -/
def stageTeam (a : GenArgs) (m : Method) : List SelectableCodeSignGroup :=
  if a.teamID = "" then stageExportMethod a m
  else filterSelectableCodeSignGroups (stageExportMethod a m) (teamFilter a.teamID)

/-- Candidate groups after the archive-origin filter, utils.go lines
173-184: when the archive was signed with a non-managed profile, managed
groups are removed. -/
def stageArchiveOrigin (a : GenArgs) (m : Method) : List SelectableCodeSignGroup :=
  if archiveProfileXcodeManaged a then stageTeam a m
  else filterSelectableCodeSignGroups (stageTeam a m) (notXcodeManagedFilter a.isXcodeManaged)

/-- Candidate groups after the default-profile exclusion, utils.go lines
186-201: runs only when no team identifier was supplied and a default
profile URL is configured; a fetch failure is ignored; the filtered set
replaces the candidates only when it is non-empty. -/
def stageDefaultExclusion (a : GenArgs) (m : Method) : List SelectableCodeSignGroup :=
  if a.teamID = "" ∧ a.defaultProfileURL ≠ "" then
    match a.defaultProfileResult with
    | Except.ok defaultProfile =>
        if 0 < (filterSelectableCodeSignGroups (stageArchiveOrigin a m)
            (excludeProfileNameFilter defaultProfile.name)).length then
          filterSelectableCodeSignGroups (stageArchiveOrigin a m)
            (excludeProfileNameFilter defaultProfile.name)
        else stageArchiveOrigin a m
    | Except.error _ => stageArchiveOrigin a m
  else stageArchiveOrigin a m

/-- Per-target narrowing of one group, utils.go lines 205-216: each bundle
identifier with a non-empty candidate list maps to the first profile of the
list; bundle identifiers with an empty list are dropped (with a warning). -/
def narrowPairs (l : List (String × List ProvisioningProfileInfo)) :
    List (String × ProvisioningProfileInfo) :=
  l.filterMap (fun entry =>
    match entry.2 with
    | [] => none
    | p :: _ => some (entry.1, p))

/-- The narrowed group built by the loop body of utils.go lines 205-216
(export.NewIOSGroup over the narrowed mapping). -/
def toIosGroup (g : SelectableCodeSignGroup) : IosCodeSignGroup :=
  { certificate := g.certificate
    bundleIDProfileMap := narrowPairs g.bundleIDProfilesMap }

/-- The narrowed groups handed to final selection, utils.go lines 203-224. -/
def iosCodeSignGroupsOf (a : GenArgs) (m : Method) : List IosCodeSignGroup :=
  (stageDefaultExclusion a m).map toIosGroup

/-- The export code-sign style computed by the selection loop, utils.go
lines 239-254: each iterated profile overwrites the style with automatic
when the profile is build-tool managed and with manual otherwise, so the
result is the classification of the last iterated profile (or the empty
string for an empty mapping). -/
def exportCodeSignStyleOf (managed : String → Bool)
    (l : List (String × ProvisioningProfileInfo)) : String :=
  l.foldl (fun _ entry => if managed entry.2.name then "automatic" else "manual") ""

/-- The four signing values produced by final selection (exportTeamID,
exportCodeSignIdentity, exportProfileMapping, exportCodeSignStyle of
utils.go lines 67-70 and 226-257). -/
structure SigningValues where
  exportTeamID : String
  exportCodeSignIdentity : String
  exportProfileMapping : List (String × String)
  exportCodeSignStyle : String
deriving DecidableEq, Repr

/-- Final selection, utils.go lines 226-257: with no surviving group the
four signing values stay at their zero values; otherwise the first group in
enumeration order is used (a multiplicity greater than one only logs a
warning). -/
def signingSelection (a : GenArgs) (m : Method) : SigningValues :=
  match iosCodeSignGroupsOf a m with
  | [] =>
      { exportTeamID := ""
        exportCodeSignIdentity := ""
        exportProfileMapping := []
        exportCodeSignStyle := "" }
  | g :: _ =>
      { exportTeamID := g.certificate.teamID
        exportCodeSignIdentity := g.certificate.commonName
        exportProfileMapping := g.bundleIDProfileMap.map (fun entry => (entry.1, entry.2.name))
        exportCodeSignStyle := exportCodeSignStyleOf a.isXcodeManaged g.bundleIDProfileMap }

/-- The signing values reaching the synthesis stage: the whole resolution
runs only when the build-tool major version is at least 9 (utils.go line
86), otherwise the zero values of utils.go lines 67-70 are used. -/
def signingValues (a : GenArgs) (m : Method) : SigningValues :=
  if 9 ≤ a.xcodebuildMajorVersion then signingSelection a m
  else
    { exportTeamID := ""
      exportCodeSignIdentity := ""
      exportProfileMapping := []
      exportCodeSignStyle := "" }

/-- The bundle identifier of the distributed product, utils.go lines 72-77;
none models the Go nil-pointer dereference when the clip product is
requested from an archive without a clip application. -/
def productBundleIDOf (a : GenArgs) : Option String :=
  match a.exportProduct with
  | ExportProduct.app => some a.archive.application.bundleIdentifier
  | ExportProduct.appClip =>
      a.archive.application.clipApplication.map ClipApplication.bundleIdentifier

/-- The synthesized export options value, from
exportoptions.AppStoreOptionsModel and exportoptions.NonAppStoreOptionsModel
of the go-xcode dependency as assigned by utils.go lines 260-309. A field
that the source assigns only under a version gate is an Option, none meaning
the assignment never ran and the field is absent from the document. -/
inductive ExportOptionsValue where
  | appStore (uploadBitcode : Bool)
      (bundleIDProvisioningProfileMapping : Option (List (String × String)))
      (signingCertificate : Option String)
      (teamID : Option String)
      (signingStyle : Option String)
      (manageAppVersion : Option Bool)
  | nonAppStore (method : Method) (compileBitcode : Bool)
      (distributionBundleIdentifier : Option String)
      (bundleIDProvisioningProfileMapping : Option (List (String × String)))
      (signingCertificate : Option String)
      (teamID : Option String)
      (signingStyle : Option String)
deriving DecidableEq, Repr

/-- The per-bundle profile mapping field of either options shape. -/
def ExportOptionsValue.profileMapping : ExportOptionsValue → Option (List (String × String))
  | ExportOptionsValue.appStore _ m _ _ _ _ => m
  | ExportOptionsValue.nonAppStore _ _ _ m _ _ _ => m

/-- The signing certificate field of either options shape. -/
def ExportOptionsValue.signingCertificateField : ExportOptionsValue → Option String
  | ExportOptionsValue.appStore _ _ c _ _ _ => c
  | ExportOptionsValue.nonAppStore _ _ _ _ c _ _ => c

/-- The team identifier field of either options shape. -/
def ExportOptionsValue.teamIDField : ExportOptionsValue → Option String
  | ExportOptionsValue.appStore _ _ _ t _ _ => t
  | ExportOptionsValue.nonAppStore _ _ _ _ _ t _ => t

/-- The signing style field of either options shape. -/
def ExportOptionsValue.signingStyleField : ExportOptionsValue → Option String
  | ExportOptionsValue.appStore _ _ _ _ s _ => s
  | ExportOptionsValue.nonAppStore _ _ _ _ _ _ s => s

/-- The distribution bundle identifier field (only the non-app-store shape
has it). -/
def ExportOptionsValue.distributionBundleIdentifierField : ExportOptionsValue → Option String
  | ExportOptionsValue.appStore _ _ _ _ _ _ => none
  | ExportOptionsValue.nonAppStore _ _ d _ _ _ _ => d

/-- The manage-app-version field (only the app-store shape has it). -/
def ExportOptionsValue.manageAppVersionField : ExportOptionsValue → Option Bool
  | ExportOptionsValue.appStore _ _ _ _ _ v => v
  | ExportOptionsValue.nonAppStore _ _ _ _ _ _ _ => none

/-- The export-options synthesis of utils.go lines 260-309, producing the
options value; the version gates are exactly those of the source (signing
fields at major version 9, distribution bundle identifier at 12,
manage app version at 13), and the signing style is set exactly when the
archive profile is build-tool managed and the computed style is manual. -/
def synthesizeExportOptions (a : GenArgs) (m : Method) (productBundleID : String) :
    ExportOptionsValue :=
  let sv := signingValues a m
  let style : Option String :=
    if 9 ≤ a.xcodebuildMajorVersion then
      if archiveProfileXcodeManaged a ∧ sv.exportCodeSignStyle = "manual" then some "manual"
      else none
    else none
  if m = Method.appStore then
    ExportOptionsValue.appStore a.uploadBitcode
      (if 9 ≤ a.xcodebuildMajorVersion then some sv.exportProfileMapping else none)
      (if 9 ≤ a.xcodebuildMajorVersion then some sv.exportCodeSignIdentity else none)
      (if 9 ≤ a.xcodebuildMajorVersion then some sv.exportTeamID else none)
      style
      (if 13 ≤ a.xcodebuildMajorVersion then some a.manageVersionAndBuildNumber else none)
  else
    ExportOptionsValue.nonAppStore m a.compileBitcode
      (if 12 ≤ a.xcodebuildMajorVersion then some productBundleID else none)
      (if 9 ≤ a.xcodebuildMajorVersion then some sv.exportProfileMapping else none)
      (if 9 ≤ a.xcodebuildMajorVersion then some sv.exportCodeSignIdentity else none)
      (if 9 ≤ a.xcodebuildMajorVersion then some sv.exportTeamID else none)
      style

/-- The generation of the export options value, generateExportOptionsPlist
of utils.go lines 62-311 up to serialization: resolve the product bundle
identifier (a missing clip application is the Go nil dereference), parse the
export method, run the resolution pipeline when the version gate allows it,
and synthesize the options. -/
def generateExportOptionsValue (a : GenArgs) : Except String ExportOptionsValue :=
  match productBundleIDOf a with
  | none => Except.error "invalid memory address or nil pointer dereference"
  | some productBundleID =>
      match parseMethod a.exportMethodStr with
      | none =>
          Except.error ("failed to parse export options, error: unkown method (" ++
            a.exportMethodStr ++ ")")
      | some m => Except.ok (synthesizeExportOptions a m productBundleID)

/-- Lexicographic comparison of character lists, used by the serializer to
order dictionary keys. -/
def charListLe : List Char → List Char → Bool
  | [], _ => true
  | _ :: _, [] => false
  | a :: as, b :: bs => if a < b then true else if b < a then false else charListLe as bs

/-- Key order used by the serializer on the per-bundle mapping. -/
def pairKeyLe (x y : String × String) : Bool :=
  charListLe x.1.data y.1.data

/-- Insertion into a key-ordered list of pairs. -/
def insertPair (x : String × String) : List (String × String) → List (String × String)
  | [] => [x]
  | y :: ys => if pairKeyLe x y then x :: y :: ys else y :: insertPair x ys

/-- Key-ordered insertion sort of the per-bundle mapping. -/
def sortPairs : List (String × String) → List (String × String)
  | [] => []
  | x :: xs => insertPair x (sortPairs xs)

/-- Modelled from the spec: rendering of one optional document field; a
field whose assignment never ran is omitted entirely from the document
(spec 4.3, fields below threshold are omitted entirely, not set to
empty/default). -/
def renderField (key : String) : Option String → String
  | none => ""
  | some v => key ++ "=" ++ v ++ ";"

/-- Modelled from the spec: rendering of the per-bundle profile mapping;
the plist serializer of the howett.net/plist dependency emits dictionary
keys in sorted order, which is what makes the documented byte-idempotence
(spec 8) possible at all. -/
def renderMapping (l : List (String × String)) : String :=
  (sortPairs l).foldl
    (fun acc entry => acc ++ entry.1 ++ ":" ++ entry.2 ++ ",") ""

/-- Name of a method in the serialized document. -/
def Method.render : Method → String
  | Method.development => "development"
  | Method.adHoc => "ad-hoc"
  | Method.enterprise => "enterprise"
  | Method.appStore => "app-store"

/-- Modelled from the spec: serialization of the options value into the
structured property document (exportOpts.String() of the go-xcode
dependency); fields never assigned are omitted, assigned fields are emitted
in a fixed key order. -/
def ExportOptionsValue.render : ExportOptionsValue → String
  | ExportOptionsValue.appStore ub mapping cert team style mav =>
      "method=app-store;" ++
      "uploadBitcode=" ++ (if ub then "true" else "false") ++ ";" ++
      renderField "provisioningProfiles" (mapping.map renderMapping) ++
      renderField "signingCertificate" cert ++
      renderField "teamID" team ++
      renderField "signingStyle" style ++
      renderField "manageAppVersionAndBuildNumber"
        (mav.map (fun b => if b then "true" else "false"))
  | ExportOptionsValue.nonAppStore m cb dbi mapping cert team style =>
      "method=" ++ m.render ++ ";" ++
      "compileBitcode=" ++ (if cb then "true" else "false") ++ ";" ++
      renderField "distributionBundleIdentifier" dbi ++
      renderField "provisioningProfiles" (mapping.map renderMapping) ++
      renderField "signingCertificate" cert ++
      renderField "teamID" team ++
      renderField "signingStyle" style

/-- The full generateExportOptionsPlist, utils.go lines 62-311: the
generated options value serialized to the document text. -/
def generateExportOptionsPlist (a : GenArgs) : Except String String :=
  (generateExportOptionsValue a).map ExportOptionsValue.render

/-- The run outcome distinguishing the two export-options paths of Step.Run
(main.go lines 187-207). -/
inductive RunOutcome where
  | customContent (content : String)
  | generated (content : String)
deriving DecidableEq, Repr

/-- Inputs of Step.Run, main.go lines 56-66, together with the results of
its collaborators: the parsed archive and the collaborator inputs of the
generation stage. -/
structure RunEnv where
  productToDistribute : ExportProduct
  xcodebuildMajorVersion : Int
  exportOptionsPlistContent : String
  distributionMethod : String
  teamID : String
  uploadBitcode : Bool
  compileBitcode : Bool
  manageVersionAndBuildNumber : Bool
  archiveResult : Except String IosArchive
  entitlementsMap : List (String × List String)
  codeSignGroups : List SelectableCodeSignGroup
  defaultProfileURL : String
  defaultProfileResult : Except String ProvisioningProfileInfo
  isXcodeManaged : String → Bool

/-- The generation arguments assembled by Step.Run for
generateExportOptionsPlist (main.go line 195). -/
def genArgsOf (env : RunEnv) (archive : IosArchive) : GenArgs :=
  { exportProduct := env.productToDistribute
    exportMethodStr := env.distributionMethod
    teamID := env.teamID
    uploadBitcode := env.uploadBitcode
    compileBitcode := env.compileBitcode
    xcodebuildMajorVersion := env.xcodebuildMajorVersion
    archive := archive
    manageVersionAndBuildNumber := env.manageVersionAndBuildNumber
    entitlementsMap := env.entitlementsMap
    codeSignGroups := env.codeSignGroups
    defaultProfileURL := env.defaultProfileURL
    defaultProfileResult := env.defaultProfileResult
    isXcodeManaged := env.isXcodeManaged }

/-- The export-options stage of Step.Run, main.go lines 187-207: explicit
plist content wins, otherwise the options are generated. -/
def runContentStage (env : RunEnv) (archive : IosArchive) : Except String RunOutcome :=
  if env.exportOptionsPlistContent ≠ "" then
    Except.ok (RunOutcome.customContent env.exportOptionsPlistContent)
  else
    match generateExportOptionsPlist (genArgsOf env archive) with
    | Except.error e => Except.error ("failed to generate export options, error: " ++ e)
    | Except.ok content => Except.ok (RunOutcome.generated content)

/-- The decision sequence of Step.Run, main.go lines 145-207 (the glue
around it, temp directories and the external export invocation, is out of
scope): parse the archive, run the app-clip guards, then choose the
export-options content. -/
def runStep (env : RunEnv) : Except String RunOutcome :=
  match env.archiveResult with
  | Except.error e => Except.error ("failed to parse archive, error: " ++ e)
  | Except.ok archive =>
      if env.productToDistribute = ExportProduct.appClip ∧ env.xcodebuildMajorVersion < 12 then
        Except.error "exporting an App Clip requires Xcode 12 or a later version"
      else if env.productToDistribute = ExportProduct.appClip ∧
          archive.application.clipApplication = none then
        Except.error "failed to export App Clip, error: xcarchive does not contain an App Clip"
      else runContentStage env archive

/-- Two selectable groups that are the same group up to the enumeration
order of their bundle-to-profiles Go map. -/
def GroupPerm (g1 g2 : SelectableCodeSignGroup) : Prop :=
  g1.certificate = g2.certificate ∧ g1.bundleIDProfilesMap.Perm g2.bundleIDProfilesMap

/-- Two argument records that are identical inputs in the sense of the Go
program: every scalar input equal, and every embedded Go map equal as a map,
that is, listed up to enumeration order. -/
def GenArgsEquiv (a1 a2 : GenArgs) : Prop :=
  a1.exportProduct = a2.exportProduct ∧
  a1.exportMethodStr = a2.exportMethodStr ∧
  a1.teamID = a2.teamID ∧
  a1.uploadBitcode = a2.uploadBitcode ∧
  a1.compileBitcode = a2.compileBitcode ∧
  a1.xcodebuildMajorVersion = a2.xcodebuildMajorVersion ∧
  a1.archive = a2.archive ∧
  a1.manageVersionAndBuildNumber = a2.manageVersionAndBuildNumber ∧
  a1.entitlementsMap.Perm a2.entitlementsMap ∧
  List.Forall₂ GroupPerm a1.codeSignGroups a2.codeSignGroups ∧
  a1.defaultProfileURL = a2.defaultProfileURL ∧
  a1.defaultProfileResult = a2.defaultProfileResult ∧
  a1.isXcodeManaged = a2.isXcodeManaged

/-- Well-formedness of the embedded Go maps: each group's
bundle-to-profiles association list has pairwise distinct keys. -/
def GenArgsMapsNodup (a : GenArgs) : Prop :=
  ∀ g ∈ a.codeSignGroups, (g.bundleIDProfilesMap.map Prod.fst).Nodup

/-- Executable check that the group selected by final selection (if any)
carries per-target profiles of one uniform managed classification. -/
def selectedStyleUniform (a : GenArgs) : Bool :=
  match parseMethod a.exportMethodStr with
  | none => true
  | some m =>
      match iosCodeSignGroupsOf a m with
      | [] => true
      | g :: _ =>
          g.bundleIDProfileMap.all (fun x =>
            g.bundleIDProfileMap.all (fun y =>
              a.isXcodeManaged x.2.name == a.isXcodeManaged y.2.name))

/-- Sample certificate used by the concrete evaluations below. -/
def certT1 : CertificateInfo :=
  { commonName := "iPhone Distribution: Example", teamID := "T1" }

/-- Sample manually managed development profile. -/
def profManual : ProvisioningProfileInfo :=
  { name := "Manual Dev Profile"
    uuid := "U1"
    teamID := "T1"
    exportType := Method.development
    entitlementKeys := [] }

/-- Sample build-tool-managed development profile. -/
def profManaged : ProvisioningProfileInfo :=
  { name := "XC iOS: com.example.ext"
    uuid := "U2"
    teamID := "T1"
    exportType := Method.development
    entitlementKeys := [] }

/-- Name classifier used by the concrete evaluations below: managed names
carry the two leading characters XC. -/
def xcManagedNames (name : String) : Bool :=
  match name.data with
  | 'X' :: 'C' :: _ => true
  | _ => false

/-- Sample archive whose original profile is build-tool managed. -/
def archiveManaged : IosArchive :=
  { application :=
      { bundleIdentifier := "com.example.app"
        clipApplication := none
        provisioningProfileName := "XC iOS: com.example.app" } }

/-- Sample group: team T1 certificate with one manual development profile. -/
def groupManualT1 : SelectableCodeSignGroup :=
  { certificate := certT1
    bundleIDProfilesMap := [("com.example.app", [profManual])] }

/-- Concrete pipeline input used to refute the universal skip-if-empty
behaviour: the supplied team identifier T2 matches no surviving group. -/
def c1Args : GenArgs :=
  { exportProduct := ExportProduct.app
    exportMethodStr := "development"
    teamID := "T2"
    uploadBitcode := false
    compileBitcode := false
    xcodebuildMajorVersion := 13
    archive := archiveManaged
    manageVersionAndBuildNumber := false
    entitlementsMap := []
    codeSignGroups := [groupManualT1]
    defaultProfileURL := ""
    defaultProfileResult := Except.error "unreachable"
    isXcodeManaged := xcManagedNames }

/-- Mixed-classification group, one enumeration order of its two-target
map: the managed profile first. -/
def groupMixedA : SelectableCodeSignGroup :=
  { certificate := certT1
    bundleIDProfilesMap :=
      [("com.example.ext", [profManaged]), ("com.example.app", [profManual])] }

/-- The same mixed-classification group, the other enumeration order. -/
def groupMixedB : SelectableCodeSignGroup :=
  { certificate := certT1
    bundleIDProfilesMap :=
      [("com.example.app", [profManual]), ("com.example.ext", [profManaged])] }

/-- Concrete pipeline input whose selected group mixes a managed and a
non-managed profile, the first enumeration order. -/
def c2ArgsA : GenArgs :=
  { exportProduct := ExportProduct.app
    exportMethodStr := "development"
    teamID := ""
    uploadBitcode := false
    compileBitcode := false
    xcodebuildMajorVersion := 13
    archive := archiveManaged
    manageVersionAndBuildNumber := false
    entitlementsMap := []
    codeSignGroups := [groupMixedA]
    defaultProfileURL := ""
    defaultProfileResult := Except.error "unreachable"
    isXcodeManaged := xcManagedNames }

/-- The same concrete pipeline input, the other enumeration order of the
selected group's map. -/
def c2ArgsB : GenArgs :=
  { c2ArgsA with codeSignGroups := [groupMixedB] }

/-- Concrete pipeline input with a matching supplied team identifier. -/
def c9Args : GenArgs :=
  { c1Args with teamID := "T1" }

/-- Concrete pipeline input with a configured default profile URL whose
fetch failed. -/
def c7Args : GenArgs :=
  { c2ArgsA with
    defaultProfileURL := "https://example.invalid/default.mobileprovision"
    defaultProfileResult := Except.error "network unreachable" }

/-- Concrete pipeline input with no candidate group at all. -/
def c3ArgsEmpty : GenArgs :=
  { c2ArgsA with codeSignGroups := [] }

/-- Concrete pipeline input whose selected group is uniformly manual. -/
def c2ArgsUniform : GenArgs :=
  { c2ArgsA with codeSignGroups := [groupManualT1] }

/-- Concrete group with a two-profile target and a zero-profile target. -/
def groupWithEmptyTarget : SelectableCodeSignGroup :=
  { certificate := certT1
    bundleIDProfilesMap :=
      [("com.example.app", [profManual, profManaged]), ("com.example.none", [])] }

/-- Base run environment for the concrete run evaluations. -/
def runEnvBase : RunEnv :=
  { productToDistribute := ExportProduct.app
    xcodebuildMajorVersion := 13
    exportOptionsPlistContent := ""
    distributionMethod := "development"
    teamID := ""
    uploadBitcode := false
    compileBitcode := false
    manageVersionAndBuildNumber := false
    archiveResult := Except.ok archiveManaged
    entitlementsMap := []
    codeSignGroups := [groupManualT1]
    defaultProfileURL := ""
    defaultProfileResult := Except.error "unreachable"
    isXcodeManaged := xcManagedNames }

/-- Run environment requesting the clip product on an Xcode 11 machine. -/
def runEnvClipOldXcode : RunEnv :=
  { runEnvBase with
    productToDistribute := ExportProduct.appClip
    xcodebuildMajorVersion := 11 }

/-- Run environment requesting the clip product from a cliples archive. -/
def runEnvClipMissing : RunEnv :=
  { runEnvBase with productToDistribute := ExportProduct.appClip }

/-- Concrete step inputs mirroring the whitespace cases of the unit test. -/
def c10Inputs : Inputs :=
  { archivePath := "deploy/archive.xcarchive"
    distributionMethod := "development"
    uploadBitcode := false
    compileBitcode := true
    teamID := "  "
    productToDistribute := "app"
    exportOptionsPlistContent := "  "
    deployDir := "deploy"
    verboseLog := false }

/-- Concrete detected build-tool version. -/
def c10Version : XcodebuildVersionModel :=
  { version := "13.0", buildVersion := "13A233", majorVersion := 13 }

/-- Second manually managed development profile. -/
def profManual2 : ProvisioningProfileInfo :=
  { name := "Manual Ext Profile"
    uuid := "U3"
    teamID := "T1"
    exportType := Method.development
    entitlementKeys := [] }

/-- Uniformly manual two-target group, one enumeration order. -/
def groupTwoManualA : SelectableCodeSignGroup :=
  { certificate := certT1
    bundleIDProfilesMap :=
      [("com.example.ext", [profManual2]), ("com.example.app", [profManual])] }

/-- The same uniformly manual group, the other enumeration order. -/
def groupTwoManualB : SelectableCodeSignGroup :=
  { certificate := certT1
    bundleIDProfilesMap :=
      [("com.example.app", [profManual]), ("com.example.ext", [profManual2])] }

/-- Concrete pipeline input with the uniformly manual group, first order. -/
def c2ArgsUniA : GenArgs :=
  { c2ArgsA with codeSignGroups := [groupTwoManualA] }

/-- Concrete pipeline input with the uniformly manual group, second order. -/
def c2ArgsUniB : GenArgs :=
  { c2ArgsA with codeSignGroups := [groupTwoManualB] }

/-- The entitlement step only ever removes groups. -/
theorem stageEntitlements_sublist (a : GenArgs) :
    (stageEntitlements a).Sublist a.codeSignGroups := by
  unfold stageEntitlements
  split
  · exact List.filter_sublist _
  · exact List.Sublist.refl _

/-- The export-method step only ever removes groups. -/
theorem stageExportMethod_sublist (a : GenArgs) (m : Method) :
    (stageExportMethod a m).Sublist (stageEntitlements a) :=
  List.filter_sublist _

/-- The team step only ever removes groups. -/
theorem stageTeam_sublist (a : GenArgs) (m : Method) :
    (stageTeam a m).Sublist (stageExportMethod a m) := by
  unfold stageTeam
  split
  · exact List.Sublist.refl _
  · exact List.filter_sublist _

/-- The archive-origin step only ever removes groups. -/
theorem stageArchiveOrigin_sublist (a : GenArgs) (m : Method) :
    (stageArchiveOrigin a m).Sublist (stageTeam a m) := by
  unfold stageArchiveOrigin
  split
  · exact List.Sublist.refl _
  · exact List.filter_sublist _

/-- The default-profile exclusion step only ever removes groups. -/
theorem stageDefaultExclusion_sublist (a : GenArgs) (m : Method) :
    (stageDefaultExclusion a m).Sublist (stageArchiveOrigin a m) := by
  unfold stageDefaultExclusion
  split
  · split
    · split
      · exact List.filter_sublist _
      · exact List.Sublist.refl _
    · exact List.Sublist.refl _
  · exact List.Sublist.refl _

/-- The default-profile exclusion step never turns a non-empty candidate
set into an empty one. -/
theorem stageDefaultExclusion_eq_nil (a : GenArgs) (m : Method)
    (h : stageDefaultExclusion a m = []) : stageArchiveOrigin a m = [] := by
  unfold stageDefaultExclusion at h
  split at h
  · split at h
    · rename_i hlen
      split at h
      · rename_i hpos
        rw [h] at hpos
        simp at hpos
      · exact h
    · exact h
  · exact h

/-- The team step with an empty supplied team identifier is the identity. -/
theorem stageTeam_of_no_team (a : GenArgs) (m : Method) (h : a.teamID = "") :
    stageTeam a m = stageExportMethod a m :=
  if_pos h

/-- The team step with a non-empty supplied team identifier is the plain
filter. -/
theorem stageTeam_of_team (a : GenArgs) (m : Method) (h : a.teamID ≠ "") :
    stageTeam a m =
      filterSelectableCodeSignGroups (stageExportMethod a m) (teamFilter a.teamID) :=
  if_neg h

/-- Claim C9: the team filter is applied exactly when a non-empty explicit
team identifier is supplied, and every group surviving it carries a
certificate with exactly the supplied team identifier. -/
theorem c9_team_filter (a : GenArgs) (m : Method) :
    (a.teamID = "" → stageTeam a m = stageExportMethod a m) ∧
    (a.teamID ≠ "" →
      stageTeam a m =
        filterSelectableCodeSignGroups (stageExportMethod a m) (teamFilter a.teamID) ∧
      ∀ g ∈ stageTeam a m, g.certificate.teamID = a.teamID) := by
  refine ⟨fun h => if_pos h, fun h => ⟨if_neg h, fun g hg => ?_⟩⟩
  rw [stageTeam_of_team a m h] at hg
  have hf : teamFilter a.teamID g = true := List.of_mem_filter hg
  exact eq_of_beq hf

/-- Witness for C9 at a concrete input: with supplied team T1 the step is
the filter and the surviving group carries team T1. -/
theorem c9_team_filter_witness :
    stageTeam c9Args Method.development =
      filterSelectableCodeSignGroups (stageExportMethod c9Args Method.development)
        (teamFilter c9Args.teamID) ∧
    groupManualT1.certificate.teamID = c9Args.teamID := by
  have h := (c9_team_filter c9Args Method.development).2 (by decide)
  exact ⟨h.1, h.2 groupManualT1 (by decide)⟩

/-- Looking up a key that is not among the keys of an association list
yields none. -/
theorem lookup_eq_none_of_not_mem_keys {β : Type} (b : String)
    (l : List (String × β)) (h : b ∉ l.map Prod.fst) : l.lookup b = none := by
  induction l with
  | nil => rfl
  | cons x t ih =>
      simp only [List.map_cons, List.mem_cons, not_or] at h
      have hb : (b == x.1) = false := beq_false_of_ne h.1
      cases x
      simp only [List.lookup, hb]
      exact ih h.2

/-- Narrowing drops a leading target with no candidate profile. -/
theorem narrowPairs_cons_nil (k : String)
    (t : List (String × List ProvisioningProfileInfo)) :
    narrowPairs ((k, []) :: t) = narrowPairs t :=
  rfl

/-- Narrowing keeps a leading target with candidates, paired with the first
candidate. -/
theorem narrowPairs_cons_cons (k : String) (p : ProvisioningProfileInfo)
    (rest : List ProvisioningProfileInfo)
    (t : List (String × List ProvisioningProfileInfo)) :
    narrowPairs ((k, p :: rest) :: t) = (k, p) :: narrowPairs t :=
  rfl

/-- Narrowing an association list with distinct keys maps each key to the
head of its candidate list: lookup after narrowing is lookup then head. -/
theorem narrowPairs_lookup (b : String)
    (l : List (String × List ProvisioningProfileInfo))
    (h : (l.map Prod.fst).Nodup) :
    (narrowPairs l).lookup b = (l.lookup b).bind List.head? := by
  induction l with
  | nil => rfl
  | cons x t ih =>
      obtain ⟨k, ps⟩ := x
      simp only [List.map_cons, List.nodup_cons] at h
      cases ps with
      | nil =>
          rw [narrowPairs_cons_nil]
          by_cases hbk : b = k
          · subst hbk
            have ht : t.lookup b = none :=
              lookup_eq_none_of_not_mem_keys b t h.1
            have hnt : (narrowPairs t).lookup b = none := by
              rw [ih h.2, ht]
              rfl
            rw [hnt]
            simp only [List.lookup, beq_self_eq_true]
            rfl
          · have hb : (b == k) = false := beq_false_of_ne hbk
            rw [ih h.2]
            simp only [List.lookup, hb]
      | cons p rest =>
          rw [narrowPairs_cons_cons]
          by_cases hbk : b = k
          · subst hbk
            simp only [List.lookup, beq_self_eq_true]
            rfl
          · have hb : (b == k) = false := beq_false_of_ne hbk
            simp only [List.lookup, hb]
            exact ih h.2

/-- Claim C8: per-target narrowing maps every bundle identifier with a
non-empty candidate-profile list to the first profile of that list, and
omits every bundle identifier whose candidate list is empty (the loop in
utils.go lines 205-216 only warns, it cannot fail). -/
theorem c8_per_target_narrowing (g : SelectableCodeSignGroup) (b : String)
    (h : (g.bundleIDProfilesMap.map Prod.fst).Nodup) :
    (toIosGroup g).bundleIDProfileMap.lookup b =
      (g.bundleIDProfilesMap.lookup b).bind List.head? :=
  narrowPairs_lookup b g.bundleIDProfilesMap h

/-- Witness for C8 at a concrete group: the two-profile target maps to the
first profile and the zero-profile target is absent. -/
theorem c8_per_target_narrowing_witness :
    (toIosGroup groupWithEmptyTarget).bundleIDProfileMap.lookup "com.example.app" =
      some profManual ∧
    (toIosGroup groupWithEmptyTarget).bundleIDProfileMap.lookup "com.example.none" =
      none := by
  have h1 := c8_per_target_narrowing groupWithEmptyTarget "com.example.app" (by decide)
  have h2 := c8_per_target_narrowing groupWithEmptyTarget "com.example.none" (by decide)
  rw [h1, h2]
  exact ⟨by decide, by decide⟩

/-- Counterexample to C1: at this concrete input the team filter step
eliminates every surviving candidate group and is not skipped — the
candidate set after the step is empty instead of the non-empty set from the
previous step, and final selection then runs with zero candidates. -/
theorem c1_counterexample :
    c1Args.teamID = "T2" ∧
    parseMethod c1Args.exportMethodStr = some Method.development ∧
    stageExportMethod c1Args Method.development = [groupManualT1] ∧
    stageTeam c1Args Method.development = [] ∧
    signingValues c1Args Method.development =
      { exportTeamID := ""
        exportCodeSignIdentity := ""
        exportProfileMapping := []
        exportCodeSignStyle := "" } := by
  refine ⟨rfl, by decide, by decide, by decide, by decide⟩

/-- Claim C1 as amended: the candidate set only ever shrinks from step to
step, and only the default-profile exclusion step is skip-guarded — it
never turns a non-empty candidate set into an empty one — while every other
filter step (entitlement, export-method, team, archive-origin) replaces the
surviving candidate set with its filtered subset unconditionally, so any of
them can leave zero candidates for final selection. -/
theorem c1_amended_filter_pipeline (a : GenArgs) (m : Method) :
    (stageEntitlements a).Sublist a.codeSignGroups ∧
    (stageExportMethod a m).Sublist (stageEntitlements a) ∧
    (stageTeam a m).Sublist (stageExportMethod a m) ∧
    (stageArchiveOrigin a m).Sublist (stageTeam a m) ∧
    (stageDefaultExclusion a m).Sublist (stageArchiveOrigin a m) ∧
    (stageDefaultExclusion a m = [] → stageArchiveOrigin a m = []) ∧
    (a.teamID ≠ "" →
      stageTeam a m =
        filterSelectableCodeSignGroups (stageExportMethod a m) (teamFilter a.teamID)) := by
  exact ⟨stageEntitlements_sublist a, stageExportMethod_sublist a m,
    stageTeam_sublist a m, stageArchiveOrigin_sublist a m,
    stageDefaultExclusion_sublist a m, stageDefaultExclusion_eq_nil a m,
    stageTeam_of_team a m⟩

/-- Witness for the amended C1 at a concrete input: the chain shrinks, and
the default-exclusion implication is discharged on an input whose candidate
set is empty throughout. -/
theorem c1_amended_filter_pipeline_witness :
    (stageTeam c1Args Method.development).Sublist
      (stageExportMethod c1Args Method.development) ∧
    stageTeam c1Args Method.development =
      filterSelectableCodeSignGroups (stageExportMethod c1Args Method.development)
        (teamFilter c1Args.teamID) ∧
    stageArchiveOrigin c3ArgsEmpty Method.development = [] := by
  have h1 := c1_amended_filter_pipeline c1Args Method.development
  have h2 := c1_amended_filter_pipeline c3ArgsEmpty Method.development
  exact ⟨h1.2.2.1, h1.2.2.2.2.2.2 (by decide), h2.2.2.2.2.2.1 (by decide)⟩

/-- The default-profile exclusion is the identity when a team identifier is
supplied or no default profile URL is configured. -/
theorem stageDefaultExclusion_of_guard_false (a : GenArgs) (m : Method)
    (h : a.teamID ≠ "" ∨ a.defaultProfileURL = "") :
    stageDefaultExclusion a m = stageArchiveOrigin a m := by
  unfold stageDefaultExclusion
  rw [if_neg]
  intro hc
  cases h with
  | inl h => exact h hc.1
  | inr h => exact hc.2 h

/-- The default-profile exclusion is the identity when the default-profile
fetch failed. -/
theorem stageDefaultExclusion_of_error (a : GenArgs) (m : Method) (e : String)
    (h : a.defaultProfileResult = Except.error e) :
    stageDefaultExclusion a m = stageArchiveOrigin a m := by
  unfold stageDefaultExclusion
  split
  · rw [h]
  · rfl

/-- The default-profile exclusion with a fetched profile is the guarded
replacement of utils.go lines 190-199. -/
theorem stageDefaultExclusion_of_ok (a : GenArgs) (m : Method)
    (p : ProvisioningProfileInfo) (hteam : a.teamID = "")
    (hurl : a.defaultProfileURL ≠ "") (hok : a.defaultProfileResult = Except.ok p) :
    stageDefaultExclusion a m =
      if 0 < (filterSelectableCodeSignGroups (stageArchiveOrigin a m)
          (excludeProfileNameFilter p.name)).length then
        filterSelectableCodeSignGroups (stageArchiveOrigin a m)
          (excludeProfileNameFilter p.name)
      else stageArchiveOrigin a m := by
  unfold stageDefaultExclusion
  rw [if_pos ⟨hteam, hurl⟩, hok]

/-- Final selection depends on the argument record only through the
surviving candidate set and the managed-name classifier. -/
theorem signingSelection_congr {a1 a2 : GenArgs} (m : Method)
    (hfn : a1.isXcodeManaged = a2.isXcodeManaged)
    (h : stageDefaultExclusion a1 m = stageDefaultExclusion a2 m) :
    signingSelection a1 m = signingSelection a2 m := by
  unfold signingSelection iosCodeSignGroupsOf
  rw [h, hfn]

/-- The version-gated signing values respect the same congruence. -/
theorem signingValues_congr {a1 a2 : GenArgs} (m : Method)
    (hv : a1.xcodebuildMajorVersion = a2.xcodebuildMajorVersion)
    (hss : signingSelection a1 m = signingSelection a2 m) :
    signingValues a1 m = signingValues a2 m := by
  unfold signingValues
  rw [hv, hss]

/-- The generated options value depends on the argument record only through
the listed scalar inputs and the signing values. -/
theorem generate_value_ext {a1 a2 : GenArgs}
    (h1 : a1.exportProduct = a2.exportProduct)
    (h2 : a1.exportMethodStr = a2.exportMethodStr)
    (h3 : a1.uploadBitcode = a2.uploadBitcode)
    (h4 : a1.compileBitcode = a2.compileBitcode)
    (h5 : a1.xcodebuildMajorVersion = a2.xcodebuildMajorVersion)
    (h6 : a1.archive = a2.archive)
    (h7 : a1.manageVersionAndBuildNumber = a2.manageVersionAndBuildNumber)
    (h8 : a1.isXcodeManaged = a2.isXcodeManaged)
    (h9 : ∀ m, signingValues a1 m = signingValues a2 m) :
    generateExportOptionsValue a1 = generateExportOptionsValue a2 := by
  unfold generateExportOptionsValue productBundleIDOf synthesizeExportOptions
    archiveProfileXcodeManaged
  simp only [h1, h2, h3, h4, h5, h6, h7, h8, h9]

/-- Claim C7: the default-profile exclusion runs only when no explicit team
identifier was supplied and a default profile URL is configured; a fetch
failure makes resolution proceed exactly as if no default profile were
configured, with no error; and the filtered set replaces the candidates
only when it is non-empty. -/
theorem c7_default_profile_exclusion (a : GenArgs) (m : Method) :
    (a.teamID ≠ "" ∨ a.defaultProfileURL = "" →
      stageDefaultExclusion a m = stageArchiveOrigin a m) ∧
    (∀ e, a.defaultProfileResult = Except.error e →
      stageDefaultExclusion a m = stageArchiveOrigin a m ∧
      generateExportOptionsPlist a =
        generateExportOptionsPlist { a with defaultProfileURL := "" }) ∧
    (∀ p, a.teamID = "" → a.defaultProfileURL ≠ "" →
      a.defaultProfileResult = Except.ok p →
      (filterSelectableCodeSignGroups (stageArchiveOrigin a m)
          (excludeProfileNameFilter p.name) = [] →
        stageDefaultExclusion a m = stageArchiveOrigin a m) ∧
      (filterSelectableCodeSignGroups (stageArchiveOrigin a m)
          (excludeProfileNameFilter p.name) ≠ [] →
        stageDefaultExclusion a m =
          filterSelectableCodeSignGroups (stageArchiveOrigin a m)
            (excludeProfileNameFilter p.name))) := by
  refine ⟨stageDefaultExclusion_of_guard_false a m, fun e he => ⟨?_, ?_⟩, fun p h1 h2 h3 => ⟨?_, ?_⟩⟩
  · exact stageDefaultExclusion_of_error a m e he
  · have hsv : ∀ n, signingValues a n = signingValues { a with defaultProfileURL := "" } n := by
      intro n
      refine signingValues_congr n rfl (signingSelection_congr n rfl ?_)
      rw [stageDefaultExclusion_of_error a n e he,
        stageDefaultExclusion_of_guard_false { a with defaultProfileURL := "" } n (Or.inr rfl)]
      rfl
    unfold generateExportOptionsPlist
    rw [@generate_value_ext a { a with defaultProfileURL := "" } rfl rfl rfl rfl rfl rfl rfl rfl hsv]
  · intro hnil
    rw [stageDefaultExclusion_of_ok a m p h1 h2 h3, hnil]
    simp
  · intro hne
    rw [stageDefaultExclusion_of_ok a m p h1 h2 h3, if_pos (List.length_pos.mpr hne)]

/-- Witness for C7 at a concrete input whose default-profile fetch failed:
the candidate set is untouched and the overall document equals the one
generated with no default profile configured. -/
theorem c7_default_profile_exclusion_witness :
    stageDefaultExclusion c7Args Method.development =
      stageArchiveOrigin c7Args Method.development ∧
    generateExportOptionsPlist c7Args =
      generateExportOptionsPlist { c7Args with defaultProfileURL := "" } := by
  exact (c7_default_profile_exclusion c7Args Method.development).2.1
    "network unreachable" rfl

/-- Below major version 9 the signing values are the zero values. -/
theorem signingValues_of_lt (a : GenArgs) (m : Method)
    (h : ¬ 9 ≤ a.xcodebuildMajorVersion) :
    signingValues a m =
      { exportTeamID := ""
        exportCodeSignIdentity := ""
        exportProfileMapping := []
        exportCodeSignStyle := "" } :=
  if_neg h

/-- From major version 9 on the signing values come from final selection. -/
theorem signingValues_of_ge (a : GenArgs) (m : Method)
    (h : 9 ≤ a.xcodebuildMajorVersion) :
    signingValues a m = signingSelection a m :=
  if_pos h

/-- Final selection of an empty candidate set keeps the zero values. -/
theorem signingSelection_of_nil (a : GenArgs) (m : Method)
    (h : iosCodeSignGroupsOf a m = []) :
    signingSelection a m =
      { exportTeamID := ""
        exportCodeSignIdentity := ""
        exportProfileMapping := []
        exportCodeSignStyle := "" } := by
  unfold signingSelection
  rw [h]

/-- Final selection of a non-empty candidate set uses its first group. -/
theorem signingSelection_of_cons (a : GenArgs) (m : Method)
    (g : IosCodeSignGroup) (gs : List IosCodeSignGroup)
    (h : iosCodeSignGroupsOf a m = g :: gs) :
    signingSelection a m =
      { exportTeamID := g.certificate.teamID
        exportCodeSignIdentity := g.certificate.commonName
        exportProfileMapping := g.bundleIDProfileMap.map (fun e => (e.1, e.2.name))
        exportCodeSignStyle := exportCodeSignStyleOf a.isXcodeManaged g.bundleIDProfileMap } := by
  unfold signingSelection
  rw [h]

/-- When the product bundle identifier resolves and the method parses, the
generation succeeds with the synthesized options. -/
theorem generateValue_eq_ok (a : GenArgs) (m : Method) (pid : String)
    (hp : productBundleIDOf a = some pid)
    (hm : parseMethod a.exportMethodStr = some m) :
    generateExportOptionsValue a = Except.ok (synthesizeExportOptions a m pid) := by
  unfold generateExportOptionsValue
  rw [hp, hm]

/-- The profile-mapping field of the synthesized options is gated on major
version 9. -/
theorem synthesize_profileMapping (a : GenArgs) (m : Method) (pid : String) :
    (synthesizeExportOptions a m pid).profileMapping =
      if 9 ≤ a.xcodebuildMajorVersion then
        some (signingValues a m).exportProfileMapping
      else none := by
  unfold synthesizeExportOptions
  by_cases hms : m = Method.appStore <;> by_cases hv9 : 9 ≤ a.xcodebuildMajorVersion <;>
    simp [hms, hv9, ExportOptionsValue.profileMapping]

/-- The signing-certificate field of the synthesized options is gated on
major version 9. -/
theorem synthesize_signingCertificate (a : GenArgs) (m : Method) (pid : String) :
    (synthesizeExportOptions a m pid).signingCertificateField =
      if 9 ≤ a.xcodebuildMajorVersion then
        some (signingValues a m).exportCodeSignIdentity
      else none := by
  unfold synthesizeExportOptions
  by_cases hms : m = Method.appStore <;> by_cases hv9 : 9 ≤ a.xcodebuildMajorVersion <;>
    simp [hms, hv9, ExportOptionsValue.signingCertificateField]

/-- The team-identifier field of the synthesized options is gated on major
version 9. -/
theorem synthesize_teamID (a : GenArgs) (m : Method) (pid : String) :
    (synthesizeExportOptions a m pid).teamIDField =
      if 9 ≤ a.xcodebuildMajorVersion then
        some (signingValues a m).exportTeamID
      else none := by
  unfold synthesizeExportOptions
  by_cases hms : m = Method.appStore <;> by_cases hv9 : 9 ≤ a.xcodebuildMajorVersion <;>
    simp [hms, hv9, ExportOptionsValue.teamIDField]

/-- The signing-style field of the synthesized options. -/
theorem synthesize_signingStyle (a : GenArgs) (m : Method) (pid : String) :
    (synthesizeExportOptions a m pid).signingStyleField =
      if 9 ≤ a.xcodebuildMajorVersion then
        if archiveProfileXcodeManaged a ∧
            (signingValues a m).exportCodeSignStyle = "manual" then some "manual"
        else none
      else none := by
  unfold synthesizeExportOptions
  by_cases hms : m = Method.appStore <;> by_cases hv9 : 9 ≤ a.xcodebuildMajorVersion <;>
    simp [hms, hv9, ExportOptionsValue.signingStyleField]

/-- The distribution-bundle-identifier field of the synthesized options:
only for non-app-store methods, gated on major version 12. -/
theorem synthesize_distributionBundleIdentifier (a : GenArgs) (m : Method) (pid : String) :
    (synthesizeExportOptions a m pid).distributionBundleIdentifierField =
      if m = Method.appStore then none
      else if 12 ≤ a.xcodebuildMajorVersion then some pid else none := by
  unfold synthesizeExportOptions
  by_cases hms : m = Method.appStore <;> by_cases hv9 : 9 ≤ a.xcodebuildMajorVersion <;>
    simp [hms, hv9, ExportOptionsValue.distributionBundleIdentifierField]

/-- The manage-app-version field of the synthesized options: only for the
app-store method, gated on major version 13. -/
theorem synthesize_manageAppVersion (a : GenArgs) (m : Method) (pid : String) :
    (synthesizeExportOptions a m pid).manageAppVersionField =
      if m = Method.appStore then
        if 13 ≤ a.xcodebuildMajorVersion then some a.manageVersionAndBuildNumber else none
      else none := by
  unfold synthesizeExportOptions
  by_cases hms : m = Method.appStore <;> by_cases hv9 : 9 ≤ a.xcodebuildMajorVersion <;>
    simp [hms, hv9, ExportOptionsValue.manageAppVersionField]

/-- Claim C3: with zero candidate groups at final selection the generation
still succeeds (no fatal error) and the signing fields of the document are
assigned but empty; with one or more groups the first group in enumeration
order provides the signing fields. -/
theorem c3_final_selection (a : GenArgs) (m : Method) (pid : String)
    (hp : productBundleIDOf a = some pid)
    (hm : parseMethod a.exportMethodStr = some m)
    (hv : 9 ≤ a.xcodebuildMajorVersion) :
    generateExportOptionsValue a = Except.ok (synthesizeExportOptions a m pid) ∧
    (iosCodeSignGroupsOf a m = [] →
      (synthesizeExportOptions a m pid).profileMapping = some [] ∧
      (synthesizeExportOptions a m pid).signingCertificateField = some "" ∧
      (synthesizeExportOptions a m pid).teamIDField = some "") ∧
    (∀ g gs, iosCodeSignGroupsOf a m = g :: gs →
      (synthesizeExportOptions a m pid).profileMapping =
        some (g.bundleIDProfileMap.map (fun e => (e.1, e.2.name))) ∧
      (synthesizeExportOptions a m pid).signingCertificateField =
        some g.certificate.commonName ∧
      (synthesizeExportOptions a m pid).teamIDField = some g.certificate.teamID) := by
  refine ⟨generateValue_eq_ok a m pid hp hm, fun hnil => ?_, fun g gs hcons => ?_⟩
  · rw [synthesize_profileMapping, synthesize_signingCertificate, synthesize_teamID,
      if_pos hv, if_pos hv, if_pos hv, signingValues_of_ge a m hv,
      signingSelection_of_nil a m hnil]
    exact ⟨rfl, rfl, rfl⟩
  · rw [synthesize_profileMapping, synthesize_signingCertificate, synthesize_teamID,
      if_pos hv, if_pos hv, if_pos hv, signingValues_of_ge a m hv,
      signingSelection_of_cons a m g gs hcons]
    exact ⟨rfl, rfl, rfl⟩

/-- Witness for C3 at concrete inputs: an input with no candidate group
succeeds with empty signing fields, and an input with one group uses it. -/
theorem c3_final_selection_witness :
    generateExportOptionsValue c3ArgsEmpty =
      Except.ok (synthesizeExportOptions c3ArgsEmpty Method.development "com.example.app") ∧
    (synthesizeExportOptions c3ArgsEmpty Method.development "com.example.app").teamIDField =
      some "" ∧
    (synthesizeExportOptions c2ArgsUniform Method.development
        "com.example.app").teamIDField = some "T1" := by
  have h1 := c3_final_selection c3ArgsEmpty Method.development "com.example.app"
    (by decide) (by decide) (by decide)
  have h2 := c3_final_selection c2ArgsUniform Method.development "com.example.app"
    (by decide) (by decide) (by decide)
  refine ⟨h1.1, (h1.2.1 (by decide)).2.2, ?_⟩
  exact (h2.2.2 (toIosGroup groupManualT1) [] (by decide)).2.2

/-- Claim C4: for every distribution method the signing-style field is set
to manual exactly when the archive's original profile is build-tool managed
and the computed code-sign style is manual; in every other case the field
is left unset. -/
theorem c4_signing_style (a : GenArgs) (m : Method) (pid : String)
    (opts : ExportOptionsValue)
    (hp : productBundleIDOf a = some pid)
    (hm : parseMethod a.exportMethodStr = some m)
    (hok : generateExportOptionsValue a = Except.ok opts) :
    opts.signingStyleField =
      if archiveProfileXcodeManaged a ∧
          (signingValues a m).exportCodeSignStyle = "manual" then some "manual"
      else none := by
  rw [generateValue_eq_ok a m pid hp hm] at hok
  cases hok
  rw [synthesize_signingStyle]
  by_cases hv : 9 ≤ a.xcodebuildMajorVersion
  · rw [if_pos hv]
  · rw [if_neg hv, signingValues_of_lt a m hv]
    have hne : ¬ (archiveProfileXcodeManaged a ∧
        (SigningValues.mk "" "" [] "").exportCodeSignStyle = "manual") := by
      intro hc
      exact absurd hc.2 (by decide)
    rw [if_neg hne]

/-- Witness for C4 at a concrete input: the mixed group of c2ArgsA computes
the manual style under a managed archive profile, so the field is forced. -/
theorem c4_signing_style_witness :
    (synthesizeExportOptions c2ArgsA Method.development
        "com.example.app").signingStyleField = some "manual" := by
  have h := c4_signing_style c2ArgsA Method.development "com.example.app"
    (synthesizeExportOptions c2ArgsA Method.development "com.example.app")
    (by decide) (by decide) (by decide)
  rw [h]
  decide

/-- Claim C5: each version-gated field is present exactly when the
build-tool major version meets its threshold and absent below it: the
per-bundle profile mapping, signing certificate and team identifier need
major version 9; the distribution bundle identifier (non-app-store only,
set to the distributed product's bundle identifier) needs 12; the
app-version management flag (app-store only) needs 13. -/
theorem c5_version_gating (a : GenArgs) (m : Method) (pid : String)
    (opts : ExportOptionsValue)
    (hp : productBundleIDOf a = some pid)
    (hm : parseMethod a.exportMethodStr = some m)
    (hok : generateExportOptionsValue a = Except.ok opts) :
    (opts.profileMapping.isSome ↔ 9 ≤ a.xcodebuildMajorVersion) ∧
    (opts.signingCertificateField.isSome ↔ 9 ≤ a.xcodebuildMajorVersion) ∧
    (opts.teamIDField.isSome ↔ 9 ≤ a.xcodebuildMajorVersion) ∧
    opts.distributionBundleIdentifierField =
      (if m = Method.appStore then none
       else if 12 ≤ a.xcodebuildMajorVersion then some pid else none) ∧
    opts.manageAppVersionField =
      (if m = Method.appStore then
        if 13 ≤ a.xcodebuildMajorVersion then some a.manageVersionAndBuildNumber else none
       else none) := by
  rw [generateValue_eq_ok a m pid hp hm] at hok
  cases hok
  refine ⟨?_, ?_, ?_, synthesize_distributionBundleIdentifier a m pid,
    synthesize_manageAppVersion a m pid⟩
  · rw [synthesize_profileMapping]
    by_cases hv : 9 ≤ a.xcodebuildMajorVersion
    · simp [hv]
    · simp [hv]
  · rw [synthesize_signingCertificate]
    by_cases hv : 9 ≤ a.xcodebuildMajorVersion
    · simp [hv]
    · simp [hv]
  · rw [synthesize_teamID]
    by_cases hv : 9 ≤ a.xcodebuildMajorVersion
    · simp [hv]
    · simp [hv]

/-- Witness for C5 at a concrete input: at major version 13 with the
development method, the signing fields are present and the distribution
bundle identifier is set. -/
theorem c5_version_gating_witness :
    ((synthesizeExportOptions c2ArgsUniform Method.development
        "com.example.app").profileMapping.isSome ↔
      9 ≤ c2ArgsUniform.xcodebuildMajorVersion) ∧
    (synthesizeExportOptions c2ArgsUniform Method.development
        "com.example.app").distributionBundleIdentifierField = some "com.example.app" := by
  have h := c5_version_gating c2ArgsUniform Method.development "com.example.app"
    (synthesizeExportOptions c2ArgsUniform Method.development "com.example.app")
    (by decide) (by decide) (by decide)
  refine ⟨h.1, ?_⟩
  rw [h.2.2.2.1]
  decide

/-- Claim C6: when the clip product is requested, Run fails fatally before
any resolution or export-options generation if the detected major version
is below 12 or the archive has no clip application; for the app product the
guards do not apply and Run proceeds to the export-options stage. -/
theorem c6_app_clip_guard (env : RunEnv) (archive : IosArchive)
    (h : env.archiveResult = Except.ok archive) :
    (env.productToDistribute = ExportProduct.appClip →
      env.xcodebuildMajorVersion < 12 →
      runStep env =
        Except.error "exporting an App Clip requires Xcode 12 or a later version") ∧
    (env.productToDistribute = ExportProduct.appClip →
      12 ≤ env.xcodebuildMajorVersion →
      archive.application.clipApplication = none →
      runStep env =
        Except.error
          "failed to export App Clip, error: xcarchive does not contain an App Clip") ∧
    (env.productToDistribute = ExportProduct.app →
      runStep env = runContentStage env archive) := by
  refine ⟨fun hclip hv => ?_, fun hclip hv hnone => ?_, fun happ => ?_⟩
  · unfold runStep
    rw [h]
    exact if_pos ⟨hclip, hv⟩
  · unfold runStep
    rw [h]
    exact (if_neg (fun hc => absurd hv (Int.not_le.mpr hc.2))).trans
      (if_pos ⟨hclip, hnone⟩)
  · unfold runStep
    rw [h]
    exact (if_neg (fun hc => ExportProduct.noConfusion (happ.symm.trans hc.1))).trans
      (if_neg (fun hc => ExportProduct.noConfusion (happ.symm.trans hc.1)))

/-- Witness for C6 at concrete environments: the clip product fails on
Xcode 11 and on a cliples archive, and the app product reaches the
export-options stage. -/
theorem c6_app_clip_guard_witness :
    runStep runEnvClipOldXcode =
      Except.error "exporting an App Clip requires Xcode 12 or a later version" ∧
    runStep runEnvClipMissing =
      Except.error
        "failed to export App Clip, error: xcarchive does not contain an App Clip" ∧
    runStep runEnvBase = runContentStage runEnvBase archiveManaged := by
  refine ⟨?_, ?_, ?_⟩
  · exact (c6_app_clip_guard runEnvClipOldXcode archiveManaged rfl).1 rfl (by decide)
  · exact (c6_app_clip_guard runEnvClipMissing archiveManaged rfl).2.1 rfl (by decide) rfl
  · exact (c6_app_clip_guard runEnvBase archiveManaged rfl).2.2 rfl

/-- Claim C10: on success ProcessInputs returns the configuration whose
TeamID and ExportOptionsPlistContent are the inputs with leading and
trailing white space stripped and whose every other field is the (parsed)
input unchanged; an all-white-space plist content trims to empty and skips
validation, so no error is raised. -/
theorem c10_process_inputs (inputs : Inputs)
    (xvr : Except String XcodebuildVersionModel)
    (pv : String → Except String Unit) :
    (∀ cfg, processInputs inputs xvr pv = Except.ok cfg →
      cfg.teamID = goTrimSpace inputs.teamID ∧
      cfg.exportOptionsPlistContent = goTrimSpace inputs.exportOptionsPlistContent ∧
      cfg.archivePath = inputs.archivePath ∧
      cfg.deployDir = inputs.deployDir ∧
      cfg.distributionMethod = inputs.distributionMethod ∧
      cfg.uploadBitcode = inputs.uploadBitcode ∧
      cfg.compileBitcode = inputs.compileBitcode ∧
      parseExportProduct inputs.productToDistribute = some cfg.productToDistribute ∧
      xvr = Except.ok cfg.xcodebuildVersion) ∧
    (goTrimSpace inputs.exportOptionsPlistContent = "" →
      ∀ product v, parseExportProduct inputs.productToDistribute = some product →
        xvr = Except.ok v →
        processInputs inputs xvr pv =
          Except.ok
            { archivePath := inputs.archivePath
              deployDir := inputs.deployDir
              productToDistribute := product
              xcodebuildVersion := v
              exportOptionsPlistContent := ""
              distributionMethod := inputs.distributionMethod
              teamID := goTrimSpace inputs.teamID
              uploadBitcode := inputs.uploadBitcode
              compileBitcode := inputs.compileBitcode }) := by
  constructor
  · intro cfg h
    unfold processInputs at h
    cases hp : parseExportProduct inputs.productToDistribute with
    | none => rw [hp] at h; exact absurd h (by simp)
    | some product =>
        rw [hp] at h
        simp only at h
        split at h
        · exact absurd h (by simp)
        · split at h
          · exact absurd h (by simp)
          · cases h
            exact ⟨rfl, rfl, rfl, rfl, rfl, rfl, rfl, rfl, rfl⟩
  · intro he product v hp hv
    unfold processInputs
    rw [hp, hv, he]
    simp [he]

/-- Witness for C10 mirroring the unit test: all-white-space TeamID and
plist content trim to empty and the step succeeds. -/
theorem c10_process_inputs_witness :
    processInputs c10Inputs (Except.ok c10Version) (fun _ => Except.error "unused") =
      Except.ok
        { archivePath := c10Inputs.archivePath
          deployDir := c10Inputs.deployDir
          productToDistribute := ExportProduct.app
          xcodebuildVersion := c10Version
          exportOptionsPlistContent := ""
          distributionMethod := c10Inputs.distributionMethod
          teamID := goTrimSpace c10Inputs.teamID
          uploadBitcode := c10Inputs.uploadBitcode
          compileBitcode := c10Inputs.compileBitcode } ∧
    goTrimSpace c10Inputs.teamID = "" := by
  refine ⟨?_, by decide⟩
  exact (c10_process_inputs c10Inputs (Except.ok c10Version)
    (fun _ => Except.error "unused")).2 (by decide) ExportProduct.app c10Version
    (by decide) rfl

/-- Any over a permuted list is unchanged. -/
theorem perm_any_eq {α : Type} {l1 l2 : List α} (h : l1.Perm l2) (f : α → Bool) :
    l1.any f = l2.any f := by
  rw [Bool.eq_iff_iff]
  simp only [List.any_eq_true]
  constructor
  · rintro ⟨x, hx, hfx⟩
    exact ⟨x, h.mem_iff.mp hx, hfx⟩
  · rintro ⟨x, hx, hfx⟩
    exact ⟨x, h.mem_iff.mpr hx, hfx⟩

/-- All over a permuted list is unchanged. -/
theorem perm_all_eq {α : Type} {l1 l2 : List α} (h : l1.Perm l2) (f : α → Bool) :
    l1.all f = l2.all f := by
  rw [Bool.eq_iff_iff]
  simp only [List.all_eq_true]
  constructor
  · intro hx x hmem
    exact hx x (h.mem_iff.mpr hmem)
  · intro hx x hmem
    exact hx x (h.mem_iff.mp hmem)

/-- All with pointwise equal predicates is unchanged. -/
theorem all_congr_fun {α : Type} (l : List α) (f g : α → Bool)
    (h : ∀ x ∈ l, f x = g x) : l.all f = l.all g := by
  induction l with
  | nil => rfl
  | cons x t ih =>
      simp only [List.all_cons]
      rw [h x (List.mem_cons_self x t), ih (fun y hy => h y (List.mem_cons_of_mem x hy))]

/-- The entitlements filter only sees the two maps up to enumeration
order. -/
theorem entitlementsFilter_congr {em1 em2 : List (String × List String)}
    {g1 g2 : SelectableCodeSignGroup} (hem : em1.Perm em2) (hg : GroupPerm g1 g2) :
    entitlementsFilter em1 g1 = entitlementsFilter em2 g2 := by
  unfold entitlementsFilter
  refine (all_congr_fun em1 _ _ (fun t _ => ?_)).trans (perm_all_eq hem _)
  exact perm_any_eq hg.2 _

/-- The export-method filter only sees the group map up to enumeration
order. -/
theorem exportMethodFilter_congr {m : Method} {g1 g2 : SelectableCodeSignGroup}
    (hg : GroupPerm g1 g2) :
    exportMethodFilter m g1 = exportMethodFilter m g2 := by
  unfold exportMethodFilter
  exact perm_all_eq hg.2 _

/-- The team filter only sees the certificate. -/
theorem teamFilter_congr {tid : String} {g1 g2 : SelectableCodeSignGroup}
    (hg : GroupPerm g1 g2) : teamFilter tid g1 = teamFilter tid g2 := by
  unfold teamFilter
  rw [hg.1]

/-- The managed-profile filter only sees the group map up to enumeration
order. -/
theorem notXcodeManagedFilter_congr {f : String → Bool}
    {g1 g2 : SelectableCodeSignGroup} (hg : GroupPerm g1 g2) :
    notXcodeManagedFilter f g1 = notXcodeManagedFilter f g2 := by
  unfold notXcodeManagedFilter
  exact perm_any_eq hg.2 _

/-- The profile-name exclusion filter only sees the group map up to
enumeration order. -/
theorem excludeProfileNameFilter_congr {n : String}
    {g1 g2 : SelectableCodeSignGroup} (hg : GroupPerm g1 g2) :
    excludeProfileNameFilter n g1 = excludeProfileNameFilter n g2 := by
  unfold excludeProfileNameFilter
  exact perm_all_eq hg.2 _

/-- Filtering two pointwise related lists with predicates that agree across
the relation yields pointwise related lists. -/
theorem forall2_filter {α : Type} {R : α → α → Prop} {p q : α → Bool}
    (hpq : ∀ x y, R x y → p x = q y) :
    ∀ {l1 l2 : List α}, List.Forall₂ R l1 l2 →
      List.Forall₂ R (l1.filter p) (l2.filter q) := by
  intro l1 l2 h
  induction h with
  | nil => exact List.Forall₂.nil
  | cons hxy htail ih =>
      rename_i x y t1 t2
      by_cases hp : p x = true
      · rw [List.filter_cons_of_pos (by exact hp),
          List.filter_cons_of_pos (by rw [← hpq x y hxy]; exact hp)]
        exact List.Forall₂.cons hxy ih
      · rw [List.filter_cons_of_neg (by simpa using hp),
          List.filter_cons_of_neg (by rw [← hpq x y hxy]; simpa using hp)]
        exact ih

/-- Mapping two pointwise related lists with a relation-preserving function
yields pointwise related lists. -/
theorem forall2_map_rel {α β : Type} {R : α → α → Prop} {S : β → β → Prop}
    (f : α → β) (hf : ∀ x y, R x y → S (f x) (f y)) :
    ∀ {l1 l2 : List α}, List.Forall₂ R l1 l2 →
      List.Forall₂ S (l1.map f) (l2.map f) := by
  intro l1 l2 h
  induction h with
  | nil => exact List.Forall₂.nil
  | cons hxy htail ih => exact List.Forall₂.cons (hf _ _ hxy) ih

/-- The entitlement stage sends identical-up-to-enumeration inputs to
pointwise related candidate sets. -/
theorem stageEntitlements_rel (a1 a2 : GenArgs) (he : GenArgsEquiv a1 a2) :
    List.Forall₂ GroupPerm (stageEntitlements a1) (stageEntitlements a2) := by
  obtain ⟨-, -, -, -, -, -, -, -, hem, hgs, -, -, -⟩ := he
  unfold stageEntitlements
  rw [hem.length_eq]
  by_cases hlen : 0 < a2.entitlementsMap.length
  · rw [if_pos hlen, if_pos hlen]
    exact forall2_filter (fun x y hxy => entitlementsFilter_congr hem hxy) hgs
  · rw [if_neg hlen, if_neg hlen]
    exact hgs

/-- The export-method stage preserves the pointwise relation. -/
theorem stageExportMethod_rel (a1 a2 : GenArgs) (m : Method) (he : GenArgsEquiv a1 a2) :
    List.Forall₂ GroupPerm (stageExportMethod a1 m) (stageExportMethod a2 m) :=
  forall2_filter (fun _ _ hxy => exportMethodFilter_congr hxy)
    (stageEntitlements_rel a1 a2 he)

/-- The team stage preserves the pointwise relation. -/
theorem stageTeam_rel (a1 a2 : GenArgs) (m : Method) (he : GenArgsEquiv a1 a2) :
    List.Forall₂ GroupPerm (stageTeam a1 m) (stageTeam a2 m) := by
  have hteam : a1.teamID = a2.teamID := he.2.2.1
  unfold stageTeam
  rw [hteam]
  by_cases ht : a2.teamID = ""
  · rw [if_pos ht, if_pos ht]
    exact stageExportMethod_rel a1 a2 m he
  · rw [if_neg ht, if_neg ht]
    exact forall2_filter (fun x y hxy => teamFilter_congr hxy)
      (stageExportMethod_rel a1 a2 m he)

/-- The archive-origin stage preserves the pointwise relation. -/
theorem stageArchiveOrigin_rel (a1 a2 : GenArgs) (m : Method) (he : GenArgsEquiv a1 a2) :
    List.Forall₂ GroupPerm (stageArchiveOrigin a1 m) (stageArchiveOrigin a2 m) := by
  have harch : a1.archive = a2.archive := he.2.2.2.2.2.2.1
  have hfn : a1.isXcodeManaged = a2.isXcodeManaged := he.2.2.2.2.2.2.2.2.2.2.2.2
  have hmgd : archiveProfileXcodeManaged a1 = archiveProfileXcodeManaged a2 := by
    unfold archiveProfileXcodeManaged
    rw [harch, hfn]
  unfold stageArchiveOrigin
  rw [hmgd, hfn]
  by_cases hm : archiveProfileXcodeManaged a2 = true
  · rw [if_pos hm, if_pos hm]
    exact stageTeam_rel a1 a2 m he
  · rw [if_neg hm, if_neg hm]
    exact forall2_filter (fun x y hxy => notXcodeManagedFilter_congr hxy)
      (stageTeam_rel a1 a2 m he)

/-- The default-profile exclusion stage preserves the pointwise relation. -/
theorem stageDefaultExclusion_rel (a1 a2 : GenArgs) (m : Method)
    (he : GenArgsEquiv a1 a2) :
    List.Forall₂ GroupPerm (stageDefaultExclusion a1 m) (stageDefaultExclusion a2 m) := by
  have hteam : a1.teamID = a2.teamID := he.2.2.1
  have hurl : a1.defaultProfileURL = a2.defaultProfileURL := he.2.2.2.2.2.2.2.2.2.2.1
  have hres : a1.defaultProfileResult = a2.defaultProfileResult := he.2.2.2.2.2.2.2.2.2.2.2.1
  have hrel := stageArchiveOrigin_rel a1 a2 m he
  unfold stageDefaultExclusion
  rw [hteam, hurl, hres]
  by_cases hg : a2.teamID = "" ∧ a2.defaultProfileURL ≠ ""
  · rw [if_pos hg, if_pos hg]
    cases hr : a2.defaultProfileResult with
    | error e => exact hrel
    | ok p =>
        have hfrel : List.Forall₂ GroupPerm
            (filterSelectableCodeSignGroups (stageArchiveOrigin a1 m)
              (excludeProfileNameFilter p.name))
            (filterSelectableCodeSignGroups (stageArchiveOrigin a2 m)
              (excludeProfileNameFilter p.name)) :=
          forall2_filter (fun x y hxy => excludeProfileNameFilter_congr hxy) hrel
        dsimp only
        rw [hfrel.length_eq]
        by_cases hlen : 0 < (filterSelectableCodeSignGroups (stageArchiveOrigin a2 m)
            (excludeProfileNameFilter p.name)).length
        · rw [if_pos hlen, if_pos hlen]
          exact hfrel
        · rw [if_neg hlen, if_neg hlen]
          exact hrel
  · rw [if_neg hg, if_neg hg]
    exact hrel

/-- The keys of a narrowed mapping form a sublist of the original keys. -/
theorem narrowPairs_keys_sublist :
    ∀ l : List (String × List ProvisioningProfileInfo),
      ((narrowPairs l).map Prod.fst).Sublist (l.map Prod.fst)
  | [] => List.Sublist.refl _
  | (k, []) :: t => by
      rw [narrowPairs_cons_nil]
      exact (narrowPairs_keys_sublist t).cons _
  | (k, p :: rest) :: t => by
      rw [narrowPairs_cons_cons]
      simp only [List.map_cons]
      exact (narrowPairs_keys_sublist t).cons₂ _

/-- The style fold over a uniformly classified non-empty list lands on the
classification; with an empty list it keeps the initial value. -/
theorem styleFold_const (f : String → Bool) (c : Bool) :
    ∀ (l : List (String × ProvisioningProfileInfo)) (init : String),
      (∀ x ∈ l, f x.2.name = c) → l ≠ [] →
      List.foldl (fun _ entry => if f entry.2.name then "automatic" else "manual") init l =
        if c then "automatic" else "manual" := by
  intro l
  induction l with
  | nil => intro init _ hne; exact absurd rfl hne
  | cons x t ih =>
      intro init hall _
      simp only [List.foldl_cons]
      cases t with
      | nil =>
          simp only [List.foldl_nil]
          rw [hall x (List.mem_cons_self x [])]
      | cons y t2 =>
          exact ih _ (fun z hz => hall z (List.mem_cons_of_mem x hz)) (by simp)

/-- The computed code-sign style is invariant under enumeration order
whenever the per-target profiles are uniformly classified. -/
theorem style_eq_of_perm_uniform (f : String → Bool)
    {l1 l2 : List (String × ProvisioningProfileInfo)} (hperm : l1.Perm l2)
    (hu : ∀ x ∈ l1, ∀ y ∈ l1, f x.2.name = f y.2.name) :
    exportCodeSignStyleOf f l1 = exportCodeSignStyleOf f l2 := by
  cases l1 with
  | nil =>
      have : l2 = [] := hperm.symm.eq_nil
      subst this
      rfl
  | cons x t =>
      have h1 : ∀ z ∈ x :: t, f z.2.name = f x.2.name :=
        fun z hz => hu z hz x (List.mem_cons_self x t)
      have h2 : ∀ z ∈ l2, f z.2.name = f x.2.name :=
        fun z hz => h1 z (hperm.mem_iff.mpr hz)
      have hne2 : l2 ≠ [] := by
        intro h
        rw [h] at hperm
        exact absurd hperm.eq_nil (by simp)
      unfold exportCodeSignStyleOf
      rw [styleFold_const f (f x.2.name) (x :: t) "" h1 (by simp),
        styleFold_const f (f x.2.name) l2 "" h2 hne2]

/-- A smaller head makes the lexicographic comparison true. -/
theorem charListLe_cons_lt {a b : Char} (h : a < b) (as bs : List Char) :
    charListLe (a :: as) (b :: bs) = true := by
  unfold charListLe
  rw [if_pos h]

/-- A larger head makes the lexicographic comparison false. -/
theorem charListLe_cons_gt {a b : Char} (h : b < a) (as bs : List Char) :
    charListLe (a :: as) (b :: bs) = false := by
  unfold charListLe
  rw [if_neg (lt_asymm h), if_pos h]

/-- Equal heads defer the lexicographic comparison to the tails. -/
theorem charListLe_cons_eq (a : Char) (as bs : List Char) :
    charListLe (a :: as) (a :: bs) = charListLe as bs := by
  rw [show charListLe (a :: as) (a :: bs) =
      if a < a then true else if a < a then false else charListLe as bs from rfl,
    if_neg (lt_irrefl a), if_neg (lt_irrefl a)]

/-- The lexicographic comparison is total. -/
theorem charListLe_total :
    ∀ as bs : List Char, charListLe as bs = true ∨ charListLe bs as = true
  | [], _ => Or.inl rfl
  | _ :: _, [] => Or.inr rfl
  | a :: as, b :: bs => by
      rcases lt_trichotomy a b with h | h | h
      · exact Or.inl (charListLe_cons_lt h as bs)
      · subst h
        rw [charListLe_cons_eq, charListLe_cons_eq]
        exact charListLe_total as bs
      · exact Or.inr (charListLe_cons_lt h bs as)

/-- The lexicographic comparison is antisymmetric. -/
theorem charListLe_antisymm :
    ∀ as bs : List Char, charListLe as bs = true → charListLe bs as = true → as = bs
  | [], [], _, _ => rfl
  | [], b :: bs, _, h2 => by
      rw [show charListLe (b :: bs) [] = false from rfl] at h2
      exact absurd h2 (by simp)
  | a :: as, [], h1, _ => by
      rw [show charListLe (a :: as) [] = false from rfl] at h1
      exact absurd h1 (by simp)
  | a :: as, b :: bs, h1, h2 => by
      rcases lt_trichotomy a b with h | h | h
      · rw [charListLe_cons_gt h bs as] at h2
        exact absurd h2 (by simp)
      · subst h
        rw [charListLe_cons_eq] at h1 h2
        rw [charListLe_antisymm as bs h1 h2]
      · rw [charListLe_cons_gt h as bs] at h1
        exact absurd h1 (by simp)

/-- The lexicographic comparison is transitive. -/
theorem charListLe_trans :
    ∀ as bs cs : List Char, charListLe as bs = true → charListLe bs cs = true →
      charListLe as cs = true
  | [], _, _, _, _ => rfl
  | a :: as, [], _, h1, _ => by
      rw [show charListLe (a :: as) [] = false from rfl] at h1
      exact absurd h1 (by simp)
  | a :: as, b :: bs, [], _, h2 => by
      rw [show charListLe (b :: bs) [] = false from rfl] at h2
      exact absurd h2 (by simp)
  | a :: as, b :: bs, c :: cs, h1, h2 => by
      rcases lt_trichotomy a b with hab | hab | hab
      · rcases lt_trichotomy b c with hbc | hbc | hbc
        · exact charListLe_cons_lt (lt_trans hab hbc) as cs
        · subst hbc
          exact charListLe_cons_lt hab as cs
        · rw [charListLe_cons_gt hbc bs cs] at h2
          exact absurd h2 (by simp)
      · subst hab
        rcases lt_trichotomy a c with hac | hac | hac
        · exact charListLe_cons_lt hac as cs
        · subst hac
          rw [charListLe_cons_eq] at h1 h2 ⊢
          exact charListLe_trans as bs cs h1 h2
        · rw [charListLe_cons_gt hac bs cs] at h2
          exact absurd h2 (by simp)
      · rw [charListLe_cons_gt hab as bs] at h1
        exact absurd h1 (by simp)

/-- The key order is total. -/
theorem pairKeyLe_total (x y : String × String) :
    pairKeyLe x y = true ∨ pairKeyLe y x = true :=
  charListLe_total x.1.data y.1.data

/-- The key order is transitive. -/
theorem pairKeyLe_trans {x y z : String × String} (h1 : pairKeyLe x y = true)
    (h2 : pairKeyLe y z = true) : pairKeyLe x z = true :=
  charListLe_trans x.1.data y.1.data z.1.data h1 h2

/-- Comparable keys in both directions are equal keys. -/
theorem pairKeyLe_antisymm_key {x y : String × String} (h1 : pairKeyLe x y = true)
    (h2 : pairKeyLe y x = true) : x.1 = y.1 :=
  congrArg String.mk (charListLe_antisymm x.1.data y.1.data h1 h2)

/-- Key-ordered insertion permutes to consing. -/
theorem insertPair_perm (x : String × String) :
    ∀ l : List (String × String), (insertPair x l).Perm (x :: l)
  | [] => List.Perm.refl _
  | y :: ys => by
      unfold insertPair
      split
      · exact List.Perm.refl _
      · exact ((insertPair_perm x ys).cons y).trans (List.Perm.swap x y ys)

/-- The insertion sort permutes to its input. -/
theorem sortPairs_perm : ∀ l : List (String × String), (sortPairs l).Perm l
  | [] => List.Perm.refl _
  | x :: xs => by
      unfold sortPairs
      exact (insertPair_perm x (sortPairs xs)).trans ((sortPairs_perm xs).cons x)

/-- Key-ordered insertion preserves key-ordered pairwise sortedness. -/
theorem insertPair_pairwise (x : String × String) :
    ∀ l : List (String × String),
      List.Pairwise (fun u v => pairKeyLe u v = true) l →
      List.Pairwise (fun u v => pairKeyLe u v = true) (insertPair x l)
  | [], _ => List.Pairwise.cons (by simp) List.Pairwise.nil
  | y :: ys, h => by
      unfold insertPair
      split
      · rename_i hxy
        refine List.Pairwise.cons ?_ h
        intro z hz
        rcases List.mem_cons.mp hz with hzy | hz2
        · rw [hzy]
          exact hxy
        · exact pairKeyLe_trans hxy (List.rel_of_pairwise_cons h hz2)
      · rename_i hxy
        have hyx : pairKeyLe y x = true :=
          (pairKeyLe_total x y).resolve_left (by simpa using hxy)
        refine List.Pairwise.cons ?_ (insertPair_pairwise x ys (List.Pairwise.of_cons h))
        intro z hz
        rcases List.mem_cons.mp ((insertPair_perm x ys).mem_iff.mp hz) with hzx | hz2
        · rw [hzx]
          exact hyx
        · exact List.rel_of_pairwise_cons h hz2

/-- The insertion sort produces a key-ordered list. -/
theorem sortPairs_pairwise :
    ∀ l : List (String × String),
      List.Pairwise (fun u v => pairKeyLe u v = true) (sortPairs l)
  | [] => List.Pairwise.nil
  | x :: xs => insertPair_pairwise x (sortPairs xs) (sortPairs_pairwise xs)

/-- Two enumerations of one mapping with distinct keys sort to one list. -/
theorem sortPairs_eq_of_perm (l1 l2 : List (String × String)) (h : l1.Perm l2)
    (hnd : (l1.map Prod.fst).Nodup) : sortPairs l1 = sortPairs l2 := by
  have hperm : (sortPairs l1).Perm (sortPairs l2) :=
    (sortPairs_perm l1).trans (h.trans (sortPairs_perm l2).symm)
  have hnd1 : ((sortPairs l1).map Prod.fst).Nodup :=
    (((sortPairs_perm l1).map Prod.fst).nodup_iff).mpr hnd
  have hnd2 : ((sortPairs l2).map Prod.fst).Nodup :=
    (((sortPairs_perm l2).map Prod.fst).nodup_iff).mpr
      (((h.map Prod.fst).nodup_iff).mp hnd)
  have hne1 : List.Pairwise (fun u v : String × String => u.1 ≠ v.1) (sortPairs l1) :=
    List.pairwise_map.mp hnd1
  have hne2 : List.Pairwise (fun u v : String × String => u.1 ≠ v.1) (sortPairs l2) :=
    List.pairwise_map.mp hnd2
  have hs1 : List.Pairwise
      (fun u v : String × String => pairKeyLe u v = true ∧ u.1 ≠ v.1) (sortPairs l1) :=
    (sortPairs_pairwise l1).and hne1
  have hs2 : List.Pairwise
      (fun u v : String × String => pairKeyLe u v = true ∧ u.1 ≠ v.1) (sortPairs l2) :=
    (sortPairs_pairwise l2).and hne2
  exact @List.eq_of_perm_of_sorted (String × String)
    (fun u v => pairKeyLe u v = true ∧ u.1 ≠ v.1)
    ⟨fun u v h1 h2 => absurd (pairKeyLe_antisymm_key h1.1 h2.1) h1.2⟩
    (sortPairs l1) (sortPairs l2) hperm hs1 hs2

/-- The synthesized options value only reads the listed scalar inputs and
the signing values. -/
theorem synthesize_congr {a1 a2 : GenArgs} (m : Method) (pid : String)
    (hub : a1.uploadBitcode = a2.uploadBitcode)
    (hcb : a1.compileBitcode = a2.compileBitcode)
    (hv : a1.xcodebuildMajorVersion = a2.xcodebuildMajorVersion)
    (hmv : a1.manageVersionAndBuildNumber = a2.manageVersionAndBuildNumber)
    (hmgd : archiveProfileXcodeManaged a1 = archiveProfileXcodeManaged a2)
    (hsv : signingValues a1 m = signingValues a2 m) :
    synthesizeExportOptions a1 m pid = synthesizeExportOptions a2 m pid := by
  unfold synthesizeExportOptions
  rw [hub, hcb, hv, hmv, hmgd, hsv]

/-- The rendered document of the synthesized options agrees across two runs
whose signing values agree up to the rendering of the profile mapping. -/
theorem render_synthesize_eq {a1 a2 : GenArgs} (m : Method) (pid : String)
    (hub : a1.uploadBitcode = a2.uploadBitcode)
    (hcb : a1.compileBitcode = a2.compileBitcode)
    (hv : a1.xcodebuildMajorVersion = a2.xcodebuildMajorVersion)
    (hmv : a1.manageVersionAndBuildNumber = a2.manageVersionAndBuildNumber)
    (hmgd : archiveProfileXcodeManaged a1 = archiveProfileXcodeManaged a2)
    (hteam : (signingValues a1 m).exportTeamID = (signingValues a2 m).exportTeamID)
    (hid : (signingValues a1 m).exportCodeSignIdentity =
      (signingValues a2 m).exportCodeSignIdentity)
    (hstyle : (signingValues a1 m).exportCodeSignStyle =
      (signingValues a2 m).exportCodeSignStyle)
    (hmap : renderMapping (signingValues a1 m).exportProfileMapping =
      renderMapping (signingValues a2 m).exportProfileMapping) :
    (synthesizeExportOptions a1 m pid).render = (synthesizeExportOptions a2 m pid).render := by
  unfold synthesizeExportOptions
  by_cases hms : m = Method.appStore
  · subst hms
    by_cases h9 : 9 ≤ a1.xcodebuildMajorVersion <;>
      simp [h9, ← hv, hub, hcb, hmv, hmgd, hteam, hid, hstyle, hmap,
        ExportOptionsValue.render, renderField]
  · by_cases h9 : 9 ≤ a1.xcodebuildMajorVersion <;>
      simp [hms, h9, ← hv, hub, hcb, hmv, hmgd, hteam, hid, hstyle, hmap,
        ExportOptionsValue.render, renderField]

/-- Claim C2 as amended: on inputs that are identical up to Go map
enumeration order, generation is deterministic provided the per-target
profiles of the selected group all share one managed classification; the
selected certificate and the profile mapping as a map never depend on
enumeration order, and with a mixed group only the computed signing style
(and hence the signingStyle field) can differ between runs. -/
theorem c2_amended_determinism (a1 a2 : GenArgs)
    (hnd : GenArgsMapsNodup a1)
    (he : GenArgsEquiv a1 a2)
    (hu : selectedStyleUniform a1 = true) :
    generateExportOptionsPlist a1 = generateExportOptionsPlist a2 := by
  have hprod : a1.exportProduct = a2.exportProduct := he.1
  have hstr : a1.exportMethodStr = a2.exportMethodStr := he.2.1
  have hub : a1.uploadBitcode = a2.uploadBitcode := he.2.2.2.1
  have hcb : a1.compileBitcode = a2.compileBitcode := he.2.2.2.2.1
  have hv : a1.xcodebuildMajorVersion = a2.xcodebuildMajorVersion := he.2.2.2.2.2.1
  have harch : a1.archive = a2.archive := he.2.2.2.2.2.2.1
  have hmv : a1.manageVersionAndBuildNumber = a2.manageVersionAndBuildNumber :=
    he.2.2.2.2.2.2.2.1
  have hfn : a1.isXcodeManaged = a2.isXcodeManaged := he.2.2.2.2.2.2.2.2.2.2.2.2
  have hmgd : archiveProfileXcodeManaged a1 = archiveProfileXcodeManaged a2 := by
    unfold archiveProfileXcodeManaged
    rw [harch, hfn]
  have hpid : productBundleIDOf a1 = productBundleIDOf a2 := by
    unfold productBundleIDOf
    rw [hprod, harch]
  unfold generateExportOptionsPlist generateExportOptionsValue
  rw [hstr, hpid]
  cases hp : productBundleIDOf a2 with
  | none => rfl
  | some pid =>
      cases hm : parseMethod a2.exportMethodStr with
      | none => rfl
      | some m =>
          have hsd := stageDefaultExclusion_rel a1 a2 m he
          have hios : List.Forall₂ (fun g1 g2 : IosCodeSignGroup =>
              g1.certificate = g2.certificate ∧
              g1.bundleIDProfileMap.Perm g2.bundleIDProfileMap)
              (iosCodeSignGroupsOf a1 m) (iosCodeSignGroupsOf a2 m) :=
            forall2_map_rel toIosGroup
              (fun x y hxy => ⟨hxy.1, hxy.2.filterMap _⟩) hsd
          cases hsel : iosCodeSignGroupsOf a1 m with
          | nil =>
              have hsel2 : iosCodeSignGroupsOf a2 m = [] :=
                List.forall₂_nil_left_iff.mp (hsel ▸ hios)
              have hsv : signingValues a1 m = signingValues a2 m := by
                unfold signingValues
                rw [hv, signingSelection_of_nil a1 m hsel,
                  signingSelection_of_nil a2 m hsel2]
              show Except.ok ((synthesizeExportOptions a1 m pid).render) =
                Except.ok ((synthesizeExportOptions a2 m pid).render)
              exact congrArg Except.ok (congrArg ExportOptionsValue.render
                (synthesize_congr m pid hub hcb hv hmv hmgd hsv))
          | cons g1 rest1 =>
              obtain ⟨g2, rest2, hg, hrest, hsel2⟩ :=
                List.forall₂_cons_left_iff.mp (hsel ▸ hios)
              have hm1 : parseMethod a1.exportMethodStr = some m := by
                rw [hstr]
                exact hm
              have huB : (g1.bundleIDProfileMap.all (fun x =>
                  g1.bundleIDProfileMap.all (fun y =>
                    a1.isXcodeManaged x.2.name == a1.isXcodeManaged y.2.name))) = true := by
                unfold selectedStyleUniform at hu
                rw [hm1] at hu
                dsimp only at hu
                rw [hsel] at hu
                exact hu
              have huni : ∀ x ∈ g1.bundleIDProfileMap, ∀ y ∈ g1.bundleIDProfileMap,
                  a1.isXcodeManaged x.2.name = a1.isXcodeManaged y.2.name := by
                intro x hx y hy
                exact eq_of_beq (List.all_eq_true.mp
                  (List.all_eq_true.mp huB x hx) y hy)
              have hsel1 : (stageDefaultExclusion a1 m).map toIosGroup = g1 :: rest1 := hsel
              cases hsd1 : stageDefaultExclusion a1 m with
              | nil =>
                  rw [hsd1] at hsel1
                  exact absurd hsel1 (by simp)
              | cons sg sgt =>
                  rw [hsd1] at hsel1
                  simp only [List.map_cons] at hsel1
                  cases hsel1
                  have hchain : (stageDefaultExclusion a1 m).Sublist a1.codeSignGroups :=
                    ((((stageDefaultExclusion_sublist a1 m).trans
                      (stageArchiveOrigin_sublist a1 m)).trans
                      (stageTeam_sublist a1 m)).trans
                      (stageExportMethod_sublist a1 m)).trans
                      (stageEntitlements_sublist a1)
                  have hsgmem : sg ∈ a1.codeSignGroups :=
                    hchain.subset (show sg ∈ stageDefaultExclusion a1 m by
                      rw [hsd1]
                      exact List.mem_cons_self sg sgt)
                  have hndkeys : ((toIosGroup sg).bundleIDProfileMap.map Prod.fst).Nodup :=
                    (narrowPairs_keys_sublist sg.bundleIDProfilesMap).nodup (hnd sg hsgmem)
                  have hndmapkeys : (((toIosGroup sg).bundleIDProfileMap.map
                      (fun e => (e.1, e.2.name))).map Prod.fst).Nodup := by
                    rw [List.map_map]
                    exact hndkeys
                  by_cases h9 : 9 ≤ a1.xcodebuildMajorVersion
                  · have h92 : 9 ≤ a2.xcodebuildMajorVersion := hv ▸ h9
                    have hsv1 : signingValues a1 m =
                        { exportTeamID := (toIosGroup sg).certificate.teamID
                          exportCodeSignIdentity := (toIosGroup sg).certificate.commonName
                          exportProfileMapping := (toIosGroup sg).bundleIDProfileMap.map
                            (fun e => (e.1, e.2.name))
                          exportCodeSignStyle := exportCodeSignStyleOf a1.isXcodeManaged
                            (toIosGroup sg).bundleIDProfileMap } := by
                      rw [signingValues_of_ge a1 m h9]
                      exact signingSelection_of_cons a1 m (toIosGroup sg) _ hsel
                    have hsv2 : signingValues a2 m =
                        { exportTeamID := g2.certificate.teamID
                          exportCodeSignIdentity := g2.certificate.commonName
                          exportProfileMapping := g2.bundleIDProfileMap.map
                            (fun e => (e.1, e.2.name))
                          exportCodeSignStyle := exportCodeSignStyleOf a2.isXcodeManaged
                            g2.bundleIDProfileMap } := by
                      rw [signingValues_of_ge a2 m h92]
                      exact signingSelection_of_cons a2 m g2 rest2 hsel2
                    have hteam2 : (signingValues a1 m).exportTeamID =
                        (signingValues a2 m).exportTeamID := by
                      rw [hsv1, hsv2]
                      exact congrArg CertificateInfo.teamID hg.1
                    have hid2 : (signingValues a1 m).exportCodeSignIdentity =
                        (signingValues a2 m).exportCodeSignIdentity := by
                      rw [hsv1, hsv2]
                      exact congrArg CertificateInfo.commonName hg.1
                    have hstyle2 : (signingValues a1 m).exportCodeSignStyle =
                        (signingValues a2 m).exportCodeSignStyle := by
                      rw [hsv1, hsv2]
                      show exportCodeSignStyleOf a1.isXcodeManaged
                          (toIosGroup sg).bundleIDProfileMap =
                        exportCodeSignStyleOf a2.isXcodeManaged g2.bundleIDProfileMap
                      rw [← hfn]
                      exact style_eq_of_perm_uniform a1.isXcodeManaged hg.2 huni
                    have hmap2 : renderMapping (signingValues a1 m).exportProfileMapping =
                        renderMapping (signingValues a2 m).exportProfileMapping := by
                      rw [hsv1, hsv2]
                      show renderMapping ((toIosGroup sg).bundleIDProfileMap.map
                          (fun e => (e.1, e.2.name))) =
                        renderMapping (g2.bundleIDProfileMap.map (fun e => (e.1, e.2.name)))
                      unfold renderMapping
                      rw [sortPairs_eq_of_perm _ _
                        (hg.2.map (fun e => (e.1, e.2.name))) hndmapkeys]
                    show Except.ok ((synthesizeExportOptions a1 m pid).render) =
                      Except.ok ((synthesizeExportOptions a2 m pid).render)
                    exact congrArg Except.ok (render_synthesize_eq m pid hub hcb hv hmv
                      hmgd hteam2 hid2 hstyle2 hmap2)
                  · have hsv : signingValues a1 m = signingValues a2 m := by
                      rw [signingValues_of_lt a1 m h9, signingValues_of_lt a2 m (hv ▸ h9)]
                    show Except.ok ((synthesizeExportOptions a1 m pid).render) =
                      Except.ok ((synthesizeExportOptions a2 m pid).render)
                    exact congrArg Except.ok (congrArg ExportOptionsValue.render
                      (synthesize_congr m pid hub hcb hv hmv hmgd hsv))

set_option maxRecDepth 16000 in
/-- Counterexample to C2: these two argument records are identical inputs
in the Go sense — every scalar equal, every embedded map equal as a map and
with distinct keys — yet the generated documents differ byte-wise, because
the selected group mixes a managed and a non-managed profile and the last
iterated profile decides the signing style. -/
theorem c2_counterexample :
    GenArgsMapsNodup c2ArgsA ∧ GenArgsMapsNodup c2ArgsB ∧
    GenArgsEquiv c2ArgsA c2ArgsB ∧
    generateExportOptionsPlist c2ArgsA ≠ generateExportOptionsPlist c2ArgsB := by
  refine ⟨by unfold GenArgsMapsNodup; decide, by unfold GenArgsMapsNodup; decide, ?_, by decide⟩
  exact ⟨rfl, rfl, rfl, rfl, rfl, rfl, rfl, rfl, List.Perm.refl _,
    List.Forall₂.cons ⟨rfl, by decide⟩ List.Forall₂.nil, rfl, rfl, rfl⟩

/-- Witness for the amended C2 at concrete inputs: a uniformly manual
two-target group produces the identical document under both enumeration
orders of its map. -/
theorem c2_amended_determinism_witness :
    generateExportOptionsPlist c2ArgsUniA = generateExportOptionsPlist c2ArgsUniB := by
  refine c2_amended_determinism c2ArgsUniA c2ArgsUniB (by unfold GenArgsMapsNodup; decide) ?_ (by decide)
  exact ⟨rfl, rfl, rfl, rfl, rfl, rfl, rfl, rfl, List.Perm.refl _,
    List.Forall₂.cons ⟨rfl, by decide⟩ List.Forall₂.nil, rfl, rfl, rfl⟩
